import Mathlib

/-!
Verification of the GreenDisc time-clock bot (src/GreenDisc/bot.py).

The development shallowly embeds the bot's pure logic:
* decimal formatting (`natToStr`, `pad02`, `pad04`) models Python's `str`/format specs
  (`f"{x:02d}"`, `strftime` fields, which zero-pad);
* the calendar grid (`monthWeeks`) models `calendar.Calendar(firstweekday=0).monthdayscalendar`
  over the proleptic Gregorian calendar (0001-01-01 is a Monday, as in `datetime`);
* `renderizarCalendario` models `renderizar_calendario` line by line, returning `none`
  where the Python code would raise (invalid year/month for `monthdayscalendar`, or a
  record key that `datetime.strptime` rejects);
* the Discord side (channel, messages, sends) is a small state machine `PlatformState`;
  fallible platform calls return `Except`;
* persistence is modelled at two granularities: the typed `Documento` view used by the
  handlers (Python dicts become insertion-ordered association lists, which is the
  iteration order Python guarantees), and the serialized view (`Json`, `dumpJ`,
  `parseVal`) used for the save/load round-trip.  The serializer mirrors
  `json.dump(..., ensure_ascii=False, indent=2)` on the fragment of JSON the program
  reads and writes (objects, strings without control characters, unsigned integers);
  the parser accepts exactly the escapes that serializer emits.
-/

set_option maxRecDepth 100000

namespace GreenDisc

/-- Decimal digits of `n`, least significant first, by fuel-based recursion so that
the kernel can evaluate it. -/
def natDigitsRevAux : Nat → Nat → List Nat
  | _, 0 => []
  | 0, _+1 => []
  | f+1, n+1 => ((n + 1) % 10) :: natDigitsRevAux f ((n + 1) / 10)

/-- Decimal representation of a natural number, as Python's `str` produces for
a non-negative `int`. -/
def natToStr (n : Nat) : String :=
  if n = 0 then "0" else String.mk (((natDigitsRevAux n n).reverse).map Nat.digitChar)

/-- Python's `f"{n:02d}"` (also `%m`, `%d`, `%H`, `%M` of `strftime`, which zero-pad). -/
def pad02 (n : Nat) : String := if n < 10 then "0" ++ natToStr n else natToStr n

/-- Python's `f"{n:04d}"`; also the 4-digit `%Y` field of the date strings the
program manipulates (all its years are 4-digit). -/
def pad04 (n : Nat) : String :=
  if n < 10 then "000" ++ natToStr n
  else if n < 100 then "00" ++ natToStr n
  else if n < 1000 then "0" ++ natToStr n
  else natToStr n

/-- `get_month_key` / the `f"{year:04d}-{month:02d}"` month key of `bot.py`. -/
def fmtYM (y m : Nat) : String := pad04 y ++ "-" ++ pad02 m

/-- `get_date_str`: `dt.strftime("%Y-%m-%d")`. -/
def fmtDate (y m d : Nat) : String := pad04 y ++ "-" ++ pad02 m ++ "-" ++ pad02 d

/-- The `%H:%M` part of `agora.strftime("%Y-%m-%d %H:%M")`. -/
def fmtTime (hh mm : Nat) : String := pad02 hh ++ ":" ++ pad02 mm

/-- Lookup in an insertion-ordered association list (a Python dict read `m[k]`/`m.get(k)`). -/
def dget {α β : Type} [DecidableEq α] : List (α × β) → α → Option β
  | [], _ => none
  | (a, b) :: t, k => if a = k then some b else dget t k

/-- Update of a Python dict, `m[k] = v`: replaces the value in place if the key is
present, otherwise appends the new binding at the end (insertion order). -/
def dput {α β : Type} [DecidableEq α] : List (α × β) → α → β → List (α × β)
  | [], k, v => [(k, v)]
  | (a, b) :: t, k, v => if a = k then (k, v) :: t else (a, b) :: dput t k v

/-- Python's `s.startswith(p)`. -/
def pyStartswith (s p : String) : Bool := decide (s.data.take p.data.length = p.data)

/-- Python's `sep.join(l)` for single-string separators. -/
def pyJoin (sep : String) : List String → String
  | [] => ""
  | [a] => a
  | a :: b :: t => a ++ sep ++ pyJoin sep (b :: t)

/-- Python's `s.split(sep)` for a one-character separator: splits at every
occurrence, keeping empty pieces. -/
def splitOnChar (sep : Char) : List Char → List (List Char)
  | [] => [[]]
  | c :: t =>
    if c = sep then [] :: splitOnChar sep t
    else match splitOnChar sep t with
      | [] => [[c]]
      | p :: ps => (c :: p) :: ps

/-- Value of a list of decimal digit characters (used by `strptime` field parsing
and by the JSON number parser). -/
def digitsToNat (l : List Char) : Nat := l.foldl (fun a c => 10 * a + (c.toNat - 48)) 0

/-- One user's clock record for one day: the `{"name": ..., "entrada": ..., "saida": ...}`
object of the data file.  The code reads the fields with `.get(..., default)`, but every
record it writes carries all three fields, which the typed view makes structural. -/
structure Registro where
  name : String
  entrada : String
  saida : String
deriving DecidableEq

/-- The per-day map `registros[date_str] : user_id -> Registro`. -/
abbrev DiaMap := List (String × Registro)

/-- The top-level `registros` mapping, `date_str -> DiaMap`. -/
abbrev Registros := List (String × DiaMap)

/-- The persisted document: `{"registros": ..., "mensagens": ...}`, with each
`mensagens` value abbreviated to its sole `message_id` field. -/
structure Documento where
  registros : Registros
  mensagens : List (String × Nat)
deriving DecidableEq

/-! ### Calendar arithmetic (proleptic Gregorian, as Python's `datetime`/`calendar`) -/

/-- Gregorian leap year, `calendar.isleap`. -/
def bissexto (y : Nat) : Bool := y % 4 == 0 && (y % 100 != 0 || y % 400 == 0)

/-- Length of a month (`calendar.monthrange`'s day count); `0` for an invalid month. -/
def daysInMonth (y m : Nat) : Nat :=
  match m with
  | 1 => 31 | 2 => if bissexto y then 29 else 28 | 3 => 31 | 4 => 30 | 5 => 31 | 6 => 30
  | 7 => 31 | 8 => 31 | 9 => 30 | 10 => 31 | 11 => 30 | 12 => 31 | _ => 0

/-- Days in year `y` strictly before month `m`. -/
def daysBeforeMonth (y m : Nat) : Nat :=
  (List.range' 1 (m - 1)).foldl (fun a mm => a + daysInMonth y mm) 0

/-- Days strictly before January 1 of year `y`, counting from 0001-01-01. -/
def daysBeforeYear (y : Nat) : Nat :=
  365 * (y - 1) + (y - 1) / 4 - (y - 1) / 100 + (y - 1) / 400

/-- Weekday of the first day of the month, Monday = 0 (`datetime.date(y, m, 1).weekday()`;
0001-01-01 is a Monday). -/
def weekdayFirst (y m : Nat) : Nat := (daysBeforeYear y + daysBeforeMonth y m) % 7

/-- The flat day-cell list underlying `Calendar(0).monthdayscalendar`: leading zeros up
to the first weekday, the days themselves, trailing zeros to a multiple of 7. -/
def cells (y m : Nat) : List Nat :=
  let p1 := weekdayFirst y m
  let nd := daysInMonth y m
  List.replicate p1 0 ++ List.range' 1 nd ++ List.replicate ((7 - (p1 + nd) % 7) % 7) 0

/-- Split into consecutive chunks of 7, with fuel so the kernel can evaluate it. -/
def chunk7 : Nat → List Nat → List (List Nat)
  | _, [] => []
  | 0, l => [l]
  | f+1, x :: xs => ((x :: xs).take 7) :: chunk7 f ((x :: xs).drop 7)

/-- `calendar.Calendar(firstweekday=0).monthdayscalendar(y, m)`. -/
def monthWeeks (y m : Nat) : List (List Nat) := chunk7 (cells y m).length (cells y m)

/-! ### The renderer, `renderizar_calendario` -/

/-- One grid cell: `"   "` for a padding 0, else `f"{day:2d} "`. -/
def cellStr (d : Nat) : String :=
  if d = 0 then "   " else (if d < 10 then " " ++ natToStr d else natToStr d) ++ " "

/-- One grid row: `" ".join(linha_semana)`. -/
def weekRow (w : List Nat) : String := pyJoin " " (w.map cellStr)

/-- The weekday header line. -/
def cabecalho : String := "Seg Ter Qua Qui Sex Sáb Dom"

/-- The fixed notice appended when the month has no records. -/
def noticeSemRegistros : String := "_Ainda não há registros de ponto neste mês._"

/-- `MESES_PT` (a `KeyError` on any other key becomes `none`). -/
def mesesPt : Nat → Option String
  | 1 => some "Janeiro" | 2 => some "Fevereiro" | 3 => some "Março" | 4 => some "Abril"
  | 5 => some "Maio" | 6 => some "Junho" | 7 => some "Julho" | 8 => some "Agosto"
  | 9 => some "Setembro" | 10 => some "Outubro" | 11 => some "Novembro" | 12 => some "Dezembro"
  | _ => none

/-- The entry/exit time shown per user: the code leaves `t` alone unless it differs
from `"--:--"` and contains a space, in which case it shows `t.split(" ")[1][:5]`.
(The guard guarantees the split has a second piece, so the `getD` default is inert.) -/
def fmtHora (t : String) : String :=
  if t = "--:--" then t
  else if ' ' ∈ t.data then String.mk (((splitOnChar ' ' t.data).getD 1 []).take 5)
  else t

/-- One `- {nome}: entrada {e} | saída {s}` line.  `info.get("name", str(user_id))`
always finds `"name"` on records the program writes, which the typed `Registro` makes
structural. -/
def linhaUsuario (info : Registro) : String :=
  "- " ++ info.name ++ ": entrada " ++ fmtHora info.entrada ++ " | saída " ++ fmtHora info.saida

/-- `datetime.strptime(s, "%Y-%m-%d")`, reduced to the (year, month, day) triple the
code uses: `%Y` is exactly 4 digits, `%m`/`%d` are 1-2 digits, and the resulting date
must be a real proleptic-Gregorian date with year at least 1. -/
def parseDateStr (s : String) : Option (Nat × Nat × Nat) :=
  match splitOnChar '-' s.data with
  | [ys, ms, ds] =>
    if ys.length = 4 ∧ ys.all (·.isDigit) ∧
       ms ≠ [] ∧ ms.length ≤ 2 ∧ ms.all (·.isDigit) ∧
       ds ≠ [] ∧ ds.length ≤ 2 ∧ ds.all (·.isDigit) then
      let y := digitsToNat ys
      let m := digitsToNat ms
      let d := digitsToNat ds
      if 1 ≤ y ∧ 1 ≤ m ∧ m ≤ 12 ∧ 1 ≤ d ∧ d ≤ daysInMonth y m then some (y, m, d) else none
    else none
  | _ => none

/-- A well-formed record key: the output of `get_date_str` for a real
proleptic-Gregorian date with a 4-digit year, which is the only form of key the
program ever writes into `registros`. -/
def ChaveValida (s : String) : Prop :=
  ∃ y m d, 1 ≤ y ∧ y ≤ 9999 ∧ 1 ≤ m ∧ m ≤ 12 ∧ 1 ≤ d ∧ d ≤ daysInMonth y m
    ∧ s = fmtDate y m d

/-- Lexicographic (code-point) order on strings, Python's `<` on `str`. -/
def listLtChar : List Char → List Char → Bool
  | [], [] => false
  | [], _ :: _ => true
  | _ :: _, [] => false
  | a :: as, b :: bs => if a.val < b.val then true else if b.val < a.val then false else listLtChar as bs

/-- Insert into an ascending list (auxiliary to `sortStr`). -/
def insStr (x : String) : List String → List String
  | [] => [x]
  | y :: t => if listLtChar y.data x.data then y :: insStr x t else x :: y :: t

/-- Python's `sorted` on a list of strings (insertion sort; the dict keys it is
applied to are distinct, so any correct ascending sort agrees). -/
def sortStr : List String → List String
  | [] => []
  | x :: t => insStr x (sortStr t)

/-- The per-day detail lines for the sorted matching keys: for each `data_str` a
`"\n__Dia {dia:02d}/{month:02d}__"` line followed by one line per user, in dict
(insertion) order.  `none` models the `strptime` exception on a malformed key. -/
def diasDetalhes (month : Nat) (regMes : Registros) : List String → Option (List String)
  | [] => some []
  | k :: t =>
    match parseDateStr k with
    | none => none
    | some ymd =>
      match diasDetalhes month regMes t with
      | none => none
      | some rest =>
        let usuarios := (dget regMes k).getD []
        some (("\n__Dia " ++ pad02 ymd.2.2 ++ "/" ++ pad02 month ++ "__")
              :: (usuarios.map (fun p => linhaUsuario p.2) ++ rest))

/-- `renderizar_calendario(year, month, registros)`, returning the list of lines that
the code joins with `"\n"`.  `none` models the exceptions the Python code can raise:
`monthdayscalendar` on a year outside 1-9999 or a month outside 1-12, and `strptime`
on a malformed record key in the requested month. -/
def renderizarCalendario (year month : Nat) (registros : Registros) : Option (List String) :=
  if 1 ≤ year ∧ year ≤ 9999 ∧ 1 ≤ month ∧ month ≤ 12 then
    let month_key := fmtYM year month
    let grade := "```" :: cabecalho :: ((monthWeeks year month).map weekRow ++ ["```"])
    let registros_mes := registros.filter (fun p => pyStartswith p.1 month_key)
    if registros_mes = [] then some (grade ++ [noticeSemRegistros])
    else
      match diasDetalhes month registros_mes (sortStr (registros_mes.map (·.1))) with
      | none => none
      | some det => some (grade ++ ("**Registros de ponto por dia:**" :: det))
  else none

/-- The string `renderizar_calendario` returns: `"\n".join(linhas)`. -/
def renderizarCalendarioStr (y m : Nat) (registros : Registros) : Option String :=
  (renderizarCalendario y m registros).map (pyJoin "\n")

/-! ### The Discord side: publisher, clock-event handler, commands -/

/-- Store/side effects a handler performs, in order (reads and writes of the data file). -/
inductive Evt where
  | load
  | save
deriving DecidableEq

/-- The exceptions the embedded handlers can raise: the channel fetch failing, the
renderer raising (bad year/month or record key), `MESES_PT[...]` raising `KeyError`,
and `canal.send` failing. -/
inductive PErr where
  | channelNotFound
  | renderError
  | keyError
  | sendFailed
deriving DecidableEq

instance {ε α : Type} [DecidableEq ε] [DecidableEq α] : DecidableEq (Except ε α) := fun a b =>
  match a, b with
  | .error x, .error y =>
    if h : x = y then .isTrue (by rw [h]) else .isFalse (fun hh => by cases hh; exact h rfl)
  | .ok x, .ok y =>
    if h : x = y then .isTrue (by rw [h]) else .isFalse (fun hh => by cases hh; exact h rfl)
  | .error _, .ok _ => .isFalse (fun hh => by cases hh)
  | .ok _, .error _ => .isFalse (fun hh => by cases hh)

/-- What a run of `atualizar_mensagem_calendario` did: skipped (unset channel id),
edited an existing message, or created a new one; edits and creations carry the
`(title, description)` embed content. -/
inductive PubAct where
  | skipped
  | edited (mid : Nat) (conteudo : String × String)
  | created (mid : Nat) (conteudo : String × String)
deriving DecidableEq

/-- The world the bot interacts with: the stored document (the data file, typed view),
the calendar channel's messages (`message_id -> embed content`), the id Discord will
assign to the next sent message, and two failure knobs: whether the channel can be
fetched and whether `send` succeeds. -/
structure PlatformState where
  doc : Documento
  canalMsgs : List (Nat × (String × String))
  nextId : Nat
  canalOk : Bool
  sendOk : Bool
deriving DecidableEq

/-- `atualizar_mensagem_calendario(client, year, month)`.  Mirrors the code line by
line: unset channel id short-circuits before any load; then load, channel fetch,
render, title; then the two-branch upsert, where a stored reference whose message no
longer exists (`discord.NotFound` on `fetch_message`) falls through to creation, and
creation appends the new message, stores its id under the month key and saves. -/
def atualizarMensagemCalendario (channelId y m : Nat) (s : PlatformState) :
    Except PErr PubAct × PlatformState × List Evt :=
  if channelId = 0 then (.ok .skipped, s, [])
  else
    let dados := s.doc
    let mensagens := dados.mensagens
    let mk := fmtYM y m
    if ¬ s.canalOk then (.error .channelNotFound, s, [.load])
    else
      match renderizarCalendarioStr y m dados.registros with
      | none => (.error .renderError, s, [.load])
      | some descricao =>
        match mesesPt m with
        | none => (.error .keyError, s, [.load])
        | some nomeMes =>
          let conteudo := ("Calendário de ponto - " ++ nomeMes ++ "/" ++ natToStr y, descricao)
          let criar : Except PErr PubAct × PlatformState × List Evt :=
            if ¬ s.sendOk then (.error .sendFailed, s, [.load])
            else
              (.ok (.created s.nextId conteudo),
               { s with canalMsgs := s.canalMsgs ++ [(s.nextId, conteudo)],
                        nextId := s.nextId + 1,
                        doc := { dados with mensagens := dput mensagens mk s.nextId } },
               [.load, .save])
          match dget mensagens mk with
          | some mid =>
            if (dget s.canalMsgs mid).isSome then
              (.ok (.edited mid conteudo), { s with canalMsgs := dput s.canalMsgs mid conteudo },
               [.load])
            else criar
          | none => criar

/-- The current date and time (`datetime.now()`), at the precision the code stamps. -/
structure Carimbo where
  year : Nat
  month : Nat
  day : Nat
  hh : Nat
  mm : Nat

/-- Lines 222-236 of `registrar_ponto`: seed the day map and the user's record with
placeholders when absent, then overwrite the `entrada` (resp. `saida`) field. -/
def escreverRegistro (registros : Registros) (date_str uid nome hora_str tipo : String) :
    Registros :=
  let dia := (dget registros date_str).getD []
  let dia := if (dget dia uid).isSome then dia else dput dia uid ⟨nome, "--:--", "--:--"⟩
  let r := (dget dia uid).getD ⟨nome, "--:--", "--:--"⟩
  let r' := if tipo = "entrada" then { r with entrada := hora_str } else { r with saida := hora_str }
  dput registros date_str (dput dia uid r')

/-- The document as persisted by the `salvar_dados` call at line 239: the record write
of `registrar_ponto`, leaving `mensagens` untouched. -/
def registrarEscrita (doc : Documento) (date_str uid nome hora_str tipo : String) : Documento :=
  { doc with registros := escreverRegistro doc.registros date_str uid nome hora_str tipo }

/-- The effect of `salvar_dados` on the stored state: the data file now holds `d`. -/
def salvarDoc (s : PlatformState) (d : Documento) : PlatformState := { s with doc := d }

/-- `registrar_ponto(interaction, tipo)`.  Loads, writes the record, saves, then
triggers the publisher; a publisher exception propagates (there is no try/except
around the call at line 242), in which case the ephemeral confirmation at line 245 is
never sent — but the save already happened.  On success the result carries the
confirmation text. -/
def registrar_ponto (agora : Carimbo) (uid nome tipo : String) (channelId : Nat)
    (s : PlatformState) : Except PErr String × PlatformState × List Evt :=
  let date_str := fmtDate agora.year agora.month agora.day
  let hora_str := date_str ++ " " ++ fmtTime agora.hh agora.mm
  let dados1 := registrarEscrita s.doc date_str uid nome hora_str tipo
  let msg_conf := (if tipo = "entrada" then "Entrada registrada para " else "Saída registrada para ")
                  ++ nome ++ " às **" ++ String.mk ((hora_str.data.drop 11).take 5) ++ "**."
  let s1 := salvarDoc s dados1
  match atualizarMensagemCalendario channelId agora.year agora.month s1 with
  | (.error e, s2, t2) => (.error e, s2, .load :: .save :: t2)
  | (.ok _, s2, t2) => (.ok msg_conf, s2, .load :: .save :: t2)

/-- A message the bot sends back on a command: plain text or an embed `(title, description)`. -/
inductive Sent where
  | text (s : String)
  | embed (conteudo : String × String)
deriving DecidableEq

/-- `comando_calendario(ctx, ano, mes)` (`!calendario`, the show-calendar command).
Integer arguments as Python receives them; the out-of-range month is rejected with a
user-facing message before `carregar_dados` runs.  A year the renderer rejects
(outside 1-9999, e.g. negative) raises, as `monthrange` does. -/
def comando_calendario (ano mes : Int) (s : PlatformState) :
    Except PErr (List Sent) × List Evt :=
  if mes < 1 ∨ mes > 12 then
    (.ok [.text "Mês inválido. Use um valor entre 1 e 12. Ex.: `!calendario 2024 5`"], [])
  else
    match renderizarCalendarioStr ano.toNat mes.toNat s.doc.registros with
    | none => (.error .renderError, [.load])
    | some descricao =>
      match mesesPt mes.toNat with
      | none => (.error .keyError, [.load])
      | some nomeMes =>
        (.ok [.embed ("Calendário de ponto - " ++ nomeMes ++ "/" ++ natToStr ano.toNat, descricao)],
         [.load])

/-- `comando_atualizar_calendario(ctx, ano, mes)` (`!atualizar_calendario`, the
refresh-calendar command) with both arguments supplied: no validation of its own, it
calls the publisher directly and then sends a confirmation whose `MESES_PT[mes]`
lookup raises on an out-of-range month. -/
def comando_atualizar_calendario (ano mes : Int) (channelId : Nat) (s : PlatformState) :
    Except PErr (List Sent) × PlatformState × List Evt :=
  match atualizarMensagemCalendario channelId ano.toNat mes.toNat s with
  | (.error e, s2, t2) => (.error e, s2, t2)
  | (.ok _, s2, t2) =>
    match mesesPt mes.toNat with
    | none => (.error .keyError, s2, t2)
    | some nomeMes =>
      (.ok [.text ("Calendário de " ++ nomeMes ++ "/" ++ natToStr ano.toNat ++ " atualizado.")],
       s2, t2)

/-! ### The serialized store: `carregar_dados` / `salvar_dados` -/

/-- JSON values of the fragment the program reads and writes: strings, unsigned
integers and objects.  Field lists are first-order (`jnil`/`jcons`) so that all
functions below are plain structural recursions; `jobj` wraps such a chain. -/
inductive Json where
  | jstr : String → Json
  | jnum : Nat → Json
  | jobj : Json → Json
  | jnil : Json
  | jcons : String → Json → Json → Json
deriving DecidableEq

/-- String escaping of `json.dumps` with `ensure_ascii=False`: only `"` and `\`
need a backslash (control characters are outside the modelled fragment, see `wfJ`). -/
def escapeStr : List Char → List Char
  | [] => []
  | c :: t => if c = '"' ∨ c = '\\' then '\\' :: c :: escapeStr t else c :: escapeStr t

/-- A JSON string literal. -/
def quoteStr (s : String) : String := String.mk ('"' :: (escapeStr s.data ++ ['"']))

/-- `n` spaces of indentation. -/
def spacesStr (n : Nat) : String := String.mk (List.replicate n ' ')

/-- `json.dump(value, f, ensure_ascii=False, indent=2)`.  Mode `true` serializes a
value at indentation `ind`; mode `false` serializes a field chain, one
`"key": value` line per field, separated by `",\n"`. -/
def dumpJ : Bool → Nat → Json → String
  | true, _, .jstr s => quoteStr s
  | true, _, .jnum n => natToStr n
  | true, ind, .jobj f =>
    if f = .jnil then "\x7b\x7d" else "\x7b\n" ++ dumpJ false (ind + 2) f ++ "\n" ++ spacesStr ind ++ "\x7d"
  | false, ind, .jcons k v .jnil => spacesStr ind ++ quoteStr k ++ ": " ++ dumpJ true ind v
  | false, ind, .jcons k v t =>
    spacesStr ind ++ quoteStr k ++ ": " ++ dumpJ true ind v ++ ",\n" ++ dumpJ false ind t
  | _, _, _ => ""

/-- Well-formedness: mode `true` demands a value (string, number or object over a
well-formed field chain), mode `false` a field chain; strings may not contain control
characters, the one class Python would escape beyond `"` and `\`. -/
def wfJ : Bool → Json → Bool
  | true, .jstr s => s.data.all (fun c => 32 ≤ c.toNat)
  | true, .jnum _ => true
  | true, .jobj f => wfJ false f
  | false, .jnil => true
  | false, .jcons k v t => k.data.all (fun c => 32 ≤ c.toNat) && wfJ true v && wfJ false t
  | _, _ => false

/-- Node count, the fuel measure for the parser. -/
def jsize : Bool → Json → Nat
  | true, .jobj f => 1 + jsize false f
  | true, _ => 1
  | false, .jcons _ v t => 1 + jsize true v + jsize false t
  | false, _ => 0

/-- Skip JSON whitespace. -/
def skipWs : List Char → List Char
  | [] => []
  | c :: t => if c = ' ' ∨ c = '\n' ∨ c = '\t' ∨ c = '\r' then skipWs t else c :: t

/-- Parse the body of a string literal after the opening quote, undoing `escapeStr`. -/
def parseStrBody : List Char → Option (List Char × List Char)
  | [] => none
  | c :: t =>
    if c = '\\' then
      match t with
      | c2 :: t2 =>
        if c2 = '"' ∨ c2 = '\\' then (parseStrBody t2).map (fun p => (c2 :: p.1, p.2)) else none
      | [] => none
    else if c = '"' then some ([], t)
    else (parseStrBody t).map (fun p => (c :: p.1, p.2))

/-- Parse a nonempty run of decimal digits. -/
def parseNumTok (cs : List Char) : Option (Nat × List Char) :=
  let ds := cs.takeWhile (·.isDigit)
  if ds = [] then none else some (digitsToNat ds, cs.dropWhile (·.isDigit))

/-- Parse a nonempty `"key": value` field chain, given a value parser `pv`; the chain
ends at the closing `}`, which is consumed. -/
def parseFields (pv : List Char → Option (Json × List Char)) :
    Nat → List Char → Option (Json × List Char)
  | 0, _ => none
  | f+1, cs =>
    match skipWs cs with
    | [] => none
    | c :: t =>
      if c = '"' then
        match parseStrBody t with
        | none => none
        | some (k, r1) =>
          match skipWs r1 with
          | [] => none
          | c2 :: r2 =>
            if c2 = ':' then
              match pv r2 with
              | none => none
              | some (v, r3) =>
                match skipWs r3 with
                | [] => none
                | c3 :: r4 =>
                  if c3 = ',' then
                    (parseFields pv f r4).map (fun p => (.jcons (String.mk k) v p.1, p.2))
                  else if c3 = '}' then some (.jcons (String.mk k) v .jnil, r4)
                  else none
            else none
      else none

/-- Parse one JSON value of the modelled fragment. -/
def parseVal : Nat → List Char → Option (Json × List Char)
  | 0, _ => none
  | f+1, cs =>
    match skipWs cs with
    | [] => none
    | c :: t =>
      if c = '"' then (parseStrBody t).map (fun p => (.jstr (String.mk p.1), p.2))
      else if c = '{' then
        match skipWs t with
        | c2 :: r =>
          if c2 = '}' then some (.jobj .jnil, r)
          else (parseFields (parseVal f) (f + 1) t).map (fun p => (.jobj p.1, p.2))
        | [] => none
      else if c.isDigit then (parseNumTok (c :: t)).map (fun p => (.jnum p.1, p.2))
      else none

/-- `salvar_dados`: serialize the document into the data file's content. -/
def salvar_dados (d : Json) : String := dumpJ true 0 d

/-- `carregar_dados` on an existing file: `json.load`, which must consume the whole
content.  The fuel `length + 1` dominates the node count of any value the content can
denote. -/
def carregar_dados (conteudo : String) : Option Json :=
  match parseVal (conteudo.data.length + 1) conteudo.data with
  | some (v, r) => if skipWs r = [] then some v else none
  | none => none

/-- A sample persisted document (one alice record, no message references), used to
exercise the serialized store. -/
def exemploDoc : Json :=
  .jobj (.jcons "registros"
    (.jobj (.jcons "2025-11-28"
      (.jobj (.jcons "42"
        (.jobj (.jcons "name" (.jstr "alice")
               (.jcons "entrada" (.jstr "2025-11-28 09:00")
               (.jcons "saida" (.jstr "--:--") .jnil)))) .jnil)) .jnil))
    (.jcons "mensagens" (.jobj .jnil) .jnil))

/-! ## Dictionary lemmas -/

theorem dget_dput_self {α β : Type} [DecidableEq α] (m : List (α × β)) (k : α) (v : β) :
    dget (dput m k v) k = some v := by
  induction m with
  | nil => simp [dput, dget]
  | cons p t ih =>
    obtain ⟨a, b⟩ := p
    by_cases h : a = k <;> simp [dput, dget, h, ih]

theorem dget_dput_ne {α β : Type} [DecidableEq α] (m : List (α × β)) {k k' : α} (v : β)
    (h : k' ≠ k) : dget (dput m k v) k' = dget m k' := by
  induction m with
  | nil =>
    have : ¬ k = k' := fun hh => h hh.symm
    simp [dput, dget, this]
  | cons p t ih =>
    obtain ⟨a, b⟩ := p
    by_cases ha : a = k
    · subst ha
      have : ¬ a = k' := fun hh => h hh.symm
      simp [dput, dget, this]
    · simp [dput, dget, ha, ih]

theorem dput_idem {α β : Type} [DecidableEq α] (m : List (α × β)) {k : α} {v : β}
    (h : dget m k = some v) : dput m k v = m := by
  induction m with
  | nil => simp [dget] at h
  | cons p t ih =>
    obtain ⟨a, b⟩ := p
    by_cases ha : a = k
    · subst ha
      simp [dget] at h
      simp [dput, h]
    · simp [dget, ha] at h
      simp [dput, ha, ih h]

theorem dget_append_of_none {α β : Type} [DecidableEq α] (m m' : List (α × β)) {k : α}
    (h : dget m k = none) : dget (m ++ m') k = dget m' k := by
  induction m with
  | nil => simp
  | cons p t ih =>
    obtain ⟨a, b⟩ := p
    by_cases ha : a = k
    · simp [dget, ha] at h
    · simp [dget, ha] at h ⊢
      exact ih h

/-! ## The record write (`registrar_ponto` lines 222-239) -/

/-- What the record write leaves at `(date_str, uid)`: the old record (or a fresh
placeholder one carrying the supplied name) with the chosen timestamp field
overwritten. -/
theorem escreverRegistro_lookup (registros : Registros) (date_str uid nome hora_str tipo : String) :
    dget ((dget (escreverRegistro registros date_str uid nome hora_str tipo) date_str).getD [])
        uid =
      some (let old := (dget ((dget registros date_str).getD []) uid).getD ⟨nome, "--:--", "--:--"⟩
            if tipo = "entrada" then { old with entrada := hora_str }
            else { old with saida := hora_str }) := by
  unfold escreverRegistro
  by_cases h : (dget ((dget registros date_str).getD []) uid).isSome
  · obtain ⟨r, hr⟩ := Option.isSome_iff_exists.mp h
    simp [h, hr, dget_dput_self]
  · rw [Option.not_isSome_iff_eq_none] at h
    simp [h, dget_dput_self]

/-- C10: frame property of the clock-event record write.  The document persisted by
the `salvar_dados` call differs from the loaded one only at `(date_str, uid)`: the
`mensagens` mapping, every other date key, and every other user's record of the day
are untouched; at `(date_str, uid)` the chosen timestamp field is overwritten, the
record keeping its other timestamp field and its name when it already existed, and
being created from placeholders (with the supplied name) when absent. -/
theorem registrarEscrita_frame (doc : Documento) (date_str uid nome hora_str tipo : String) :
    (registrarEscrita doc date_str uid nome hora_str tipo).mensagens = doc.mensagens
    ∧ (∀ ds', ds' ≠ date_str →
        dget (registrarEscrita doc date_str uid nome hora_str tipo).registros ds'
          = dget doc.registros ds')
    ∧ (∀ uid', uid' ≠ uid →
        dget ((dget (registrarEscrita doc date_str uid nome hora_str tipo).registros
            date_str).getD []) uid'
          = dget ((dget doc.registros date_str).getD []) uid')
    ∧ (∀ r, dget ((dget doc.registros date_str).getD []) uid = some r →
        dget ((dget (registrarEscrita doc date_str uid nome hora_str tipo).registros
            date_str).getD []) uid
          = some (if tipo = "entrada" then { r with entrada := hora_str }
                  else { r with saida := hora_str }))
    ∧ (dget ((dget doc.registros date_str).getD []) uid = none →
        dget ((dget (registrarEscrita doc date_str uid nome hora_str tipo).registros
            date_str).getD []) uid
          = some (if tipo = "entrada" then ⟨nome, hora_str, "--:--"⟩
                  else ⟨nome, "--:--", hora_str⟩)) := by
  refine ⟨rfl, ?_, ?_, ?_, ?_⟩
  · intro ds' hds
    unfold registrarEscrita escreverRegistro
    simp only
    rw [dget_dput_ne _ _ hds]
  · intro uid' huid
    unfold registrarEscrita escreverRegistro
    simp only
    rw [dget_dput_self]
    simp only [Option.getD_some]
    by_cases h : (dget ((dget doc.registros date_str).getD []) uid).isSome = true
    · rw [if_pos h, dget_dput_ne _ _ huid]
    · rw [if_neg h, dget_dput_ne _ _ huid, dget_dput_ne _ _ huid]
  · intro r hr
    have := escreverRegistro_lookup doc.registros date_str uid nome hora_str tipo
    simp only [hr, Option.getD_some] at this
    exact this
  · intro hr
    have := escreverRegistro_lookup doc.registros date_str uid nome hora_str tipo
    simp only [hr, Option.getD_none] at this
    exact this

/-- Witness for `registrarEscrita_frame` at a concrete document. -/
theorem registrarEscrita_frame_witness :
    (registrarEscrita ⟨[("2025-11-28", [("42", ⟨"alice", "a", "b"⟩)])], [("2025-11", 5)]⟩
        "2025-11-28" "42" "alicia" "2025-11-28 10:00" "entrada").mensagens = [("2025-11", 5)]
    ∧ dget (registrarEscrita ⟨[("2025-11-28", [("42", ⟨"alice", "a", "b"⟩)])], [("2025-11", 5)]⟩
        "2025-11-28" "42" "alicia" "2025-11-28 10:00" "entrada").registros "2025-11-01"
      = dget ([("2025-11-28", [("42", ⟨"alice", "a", "b"⟩)])] : Registros) "2025-11-01"
    ∧ dget ((dget (registrarEscrita ⟨[("2025-11-28", [("42", ⟨"alice", "a", "b"⟩)])],
          [("2025-11", 5)]⟩
        "2025-11-28" "42" "alicia" "2025-11-28 10:00" "entrada").registros "2025-11-28").getD [])
        "42"
      = some ⟨"alice", "2025-11-28 10:00", "b"⟩ := by
  obtain ⟨h1, h2, _h3, h4, _h5⟩ :=
    registrarEscrita_frame ⟨[("2025-11-28", [("42", ⟨"alice", "a", "b"⟩)])], [("2025-11", 5)]⟩
      "2025-11-28" "42" "alicia" "2025-11-28 10:00" "entrada"
  refine ⟨h1, h2 "2025-11-01" (by decide), ?_⟩
  rw [h4 ⟨"alice", "a", "b"⟩ (by decide)]
  rfl

/-- C3 fails on the code: the display name is written only when the record is
created.  A second same-day invocation with a different display name leaves the first
name in place, so the persisted name is not the most recent invocation's. -/
theorem nome_counterexample :
    (dget ((dget (registrar_ponto ⟨2025, 11, 28, 18, 0⟩ "42" "Bob" "saida" 0
          (registrar_ponto ⟨2025, 11, 28, 9, 0⟩ "42" "Alice" "entrada" 0
            ⟨⟨[], []⟩, [], 1, true, true⟩).2.1).2.1.doc.registros "2025-11-28").getD [])
        "42").map Registro.name ≠ some "Bob"
    ∧ (dget ((dget (registrar_ponto ⟨2025, 11, 28, 18, 0⟩ "42" "Bob" "saida" 0
          (registrar_ponto ⟨2025, 11, 28, 9, 0⟩ "42" "Alice" "entrada" 0
            ⟨⟨[], []⟩, [], 1, true, true⟩).2.1).2.1.doc.registros "2025-11-28").getD [])
        "42").map Registro.name = some "Alice" := by
  constructor
  · decide
  · decide

/-- The record write never changes an existing record's name. -/
theorem escreverRegistro_name_preserved (regs : Registros) (ds uid nome hora tipo : String)
    {r : Registro} (h : dget ((dget regs ds).getD []) uid = some r) :
    (dget ((dget (escreverRegistro regs ds uid nome hora tipo) ds).getD []) uid).map
        Registro.name = some r.name := by
  rw [escreverRegistro_lookup]
  simp only [h, Option.getD_some, Option.map_some]
  split <;> rfl

/-- Auxiliary induction for `nome_first_write`: once the record exists, any further
same-day invocations keep its name. -/
theorem foldl_name_invariant (invs : List (String × String × String)) :
    ∀ (regs : Registros) (ds uid : String) (r : Registro),
      dget ((dget regs ds).getD []) uid = some r →
      (dget ((dget (invs.foldl (fun acc i => escreverRegistro acc ds uid i.1 i.2.1 i.2.2) regs)
          ds).getD []) uid).map Registro.name = some r.name := by
  induction invs with
  | nil => intro regs ds uid r h; simpa using congrArg (Option.map Registro.name) h
  | cons i t ih =>
    intro regs ds uid r h
    have step := escreverRegistro_lookup regs ds uid i.1 i.2.1 i.2.2
    simp only [h, Option.getD_some] at step
    have := ih (escreverRegistro regs ds uid i.1 i.2.1 i.2.2) ds uid _ step
    rw [List.foldl_cons]
    rw [this]
    split <;> rfl

/-- C3 amended: the display name is first-write-wins within a day.  Starting from a
state with no record for `(ds, uid)`, after any sequence of invocations
`(nome, hora, tipo)` by that user on that day the persisted record's name is the
name supplied by the first invocation of the sequence. -/
theorem nome_first_write (regs : Registros) (ds uid : String)
    (invs : List (String × String × String))
    (h0 : dget ((dget regs ds).getD []) uid = none) :
    (dget ((dget (invs.foldl (fun acc i => escreverRegistro acc ds uid i.1 i.2.1 i.2.2) regs)
        ds).getD []) uid).map Registro.name = invs.head?.map (fun i => i.1) := by
  cases invs with
  | nil => simp [h0]
  | cons i t =>
    have step := escreverRegistro_lookup regs ds uid i.1 i.2.1 i.2.2
    simp only [h0, Option.getD_none] at step
    have base : (dget ((dget (escreverRegistro regs ds uid i.1 i.2.1 i.2.2) ds).getD [])
        uid) = some (if i.2.2 = "entrada" then ⟨i.1, i.2.1, "--:--"⟩ else ⟨i.1, "--:--", i.2.1⟩) :=
      step.trans (by split <;> rfl)
    rw [List.foldl_cons]
    have := foldl_name_invariant t (escreverRegistro regs ds uid i.1 i.2.1 i.2.2) ds uid _ base
    rw [this]
    simp only [List.head?_cons, Option.map_some]
    split <;> rfl

/-- Witness for `nome_first_write`: two invocations, names Alice then Bob; the stored
name is Alice. -/
theorem nome_first_write_witness :
    dget ((dget (([("Alice", "2025-11-28 09:00", "entrada"), ("Bob", "2025-11-28 18:00", "saida")]
            : List (String × String × String)).foldl
          (fun acc i => escreverRegistro acc "2025-11-28" "42" i.1 i.2.1 i.2.2) ([] : Registros))
        "2025-11-28").getD []) "42" ≠ none
    ∧ (dget ((dget (([("Alice", "2025-11-28 09:00", "entrada"),
            ("Bob", "2025-11-28 18:00", "saida")] : List (String × String × String)).foldl
          (fun acc i => escreverRegistro acc "2025-11-28" "42" i.1 i.2.1 i.2.2) ([] : Registros))
        "2025-11-28").getD []) "42").map Registro.name = some "Alice" := by
  have := nome_first_write [] "2025-11-28" "42"
    [("Alice", "2025-11-28 09:00", "entrada"), ("Bob", "2025-11-28 18:00", "saida")] (by decide)
  refine ⟨?_, ?_⟩
  · intro hnone
    rw [hnone] at this
    simp at this
  · rw [this]
    rfl

/-! ## The publisher and the clock-event handler -/

/-- The publisher never touches the `registros` mapping of the stored document. -/
theorem atualizar_preserva_registros (ch y m : Nat) (s : PlatformState) :
    (atualizarMensagemCalendario ch y m s).2.1.doc.registros = s.doc.registros := by
  unfold atualizarMensagemCalendario
  simp only
  repeat' split
  all_goals rfl

/-- C1 fails on the code: there is no try/except around the publish call at line 242.
With an operational channel whose `send` fails, the clock event's record write is
persisted, but the platform error propagates out of `registrar_ponto` (the handler
does not proceed to the user confirmation), instead of being caught and logged. -/
theorem registrar_ponto_counterexample :
    (registrar_ponto ⟨2025, 11, 28, 9, 0⟩ "42" "alice" "entrada" 7
        ⟨⟨[], []⟩, [], 1, true, false⟩).1 = .error .sendFailed
    ∧ (registrar_ponto ⟨2025, 11, 28, 9, 0⟩ "42" "alice" "entrada" 7
        ⟨⟨[], []⟩, [], 1, true, false⟩).2.1.doc.registros
      = [("2025-11-28", [("42", ⟨"alice", "2025-11-28 09:00", "--:--"⟩)])]
    ∧ (registrar_ponto ⟨2025, 11, 28, 9, 0⟩ "42" "alice" "entrada" 7
        ⟨⟨[], []⟩, [], 1, true, false⟩).2.2 = [.load, .save, .load] := by
  refine ⟨?_, ?_, ?_⟩ <;> decide

/-- C1 amended: a platform error during the triggered publish does not roll back the
record write — the stored document's `registros` always end up exactly as the record
write left them — but the error is not caught by `registrar_ponto`: it propagates as
the handler's result, and the user confirmation is skipped. -/
theorem registrar_ponto_nao_desfaz (agora : Carimbo) (uid nome tipo : String) (ch : Nat)
    (s : PlatformState) :
    ((registrar_ponto agora uid nome tipo ch s).2.1.doc.registros
        = escreverRegistro s.doc.registros (fmtDate agora.year agora.month agora.day) uid nome
            (fmtDate agora.year agora.month agora.day ++ " " ++ fmtTime agora.hh agora.mm) tipo)
    ∧ (∀ e, (atualizarMensagemCalendario ch agora.year agora.month
          (salvarDoc s (registrarEscrita s.doc (fmtDate agora.year agora.month agora.day) uid nome
            (fmtDate agora.year agora.month agora.day ++ " " ++ fmtTime agora.hh agora.mm)
            tipo))).1 = .error e →
        (registrar_ponto agora uid nome tipo ch s).1 = .error e) := by
  unfold registrar_ponto
  simp only
  rcases hpub : atualizarMensagemCalendario ch agora.year agora.month
      (salvarDoc s (registrarEscrita s.doc (fmtDate agora.year agora.month agora.day) uid nome
        (fmtDate agora.year agora.month agora.day ++ " " ++ fmtTime agora.hh agora.mm) tipo))
    with ⟨r, s2, t2⟩
  have hreg := atualizar_preserva_registros ch agora.year agora.month
    (salvarDoc s (registrarEscrita s.doc (fmtDate agora.year agora.month agora.day) uid nome
      (fmtDate agora.year agora.month agora.day ++ " " ++ fmtTime agora.hh agora.mm) tipo))
  rw [hpub] at hreg
  cases r with
  | error e' =>
    refine ⟨hreg, ?_⟩
    intro e he
    have he' : Except.error (α := PubAct) e' = Except.error e := he
    cases he'
    rfl
  | ok a =>
    refine ⟨hreg, ?_⟩
    intro e he
    exact absurd (show Except.ok (ε := PErr) a = Except.error e from he) (by simp)

/-- Witness for `registrar_ponto_nao_desfaz` at the counterexample's input. -/
theorem registrar_ponto_nao_desfaz_witness :
    (registrar_ponto ⟨2025, 11, 28, 9, 0⟩ "42" "alice" "entrada" 7
        ⟨⟨[], []⟩, [], 1, true, false⟩).2.1.doc.registros
      = escreverRegistro [] "2025-11-28" "42" "alice" "2025-11-28 09:00" "entrada"
    ∧ (registrar_ponto ⟨2025, 11, 28, 9, 0⟩ "42" "alice" "entrada" 7
        ⟨⟨[], []⟩, [], 1, true, false⟩).1 = .error .sendFailed := by
  obtain ⟨h1, h2⟩ := registrar_ponto_nao_desfaz ⟨2025, 11, 28, 9, 0⟩ "42" "alice" "entrada" 7
    ⟨⟨[], []⟩, [], 1, true, false⟩
  exact ⟨h1, h2 .sendFailed (by decide)⟩

/-- C5: publishing for a month whose stored message reference points to a message
that no longer exists creates exactly one new message (appended to the channel),
replaces the stored reference for that month with the new message's id, and persists
the document (the trace ends with a save). -/
theorem atualizar_mensagem_sumiu (ch y m : Nat) (s : PlatformState) (mid : Nat)
    (desc nomeMes : String)
    (hch : ch ≠ 0) (hcanal : s.canalOk = true) (hsend : s.sendOk = true)
    (hrender : renderizarCalendarioStr y m s.doc.registros = some desc)
    (hmes : mesesPt m = some nomeMes)
    (href : dget s.doc.mensagens (fmtYM y m) = some mid)
    (hgone : dget s.canalMsgs mid = none) :
    atualizarMensagemCalendario ch y m s =
      (.ok (.created s.nextId ("Calendário de ponto - " ++ nomeMes ++ "/" ++ natToStr y, desc)),
       { s with
          canalMsgs := s.canalMsgs
            ++ [(s.nextId, ("Calendário de ponto - " ++ nomeMes ++ "/" ++ natToStr y, desc))],
          nextId := s.nextId + 1,
          doc := { s.doc with mensagens := dput s.doc.mensagens (fmtYM y m) s.nextId } },
       [.load, .save])
    ∧ dget (dput s.doc.mensagens (fmtYM y m) s.nextId) (fmtYM y m) = some s.nextId := by
  constructor
  · unfold atualizarMensagemCalendario
    rw [if_neg hch]
    simp only [hcanal, hrender, hmes, href, hgone, hsend]
    rfl
  · exact dget_dput_self _ _ _

/-- Witness for `atualizar_mensagem_sumiu`: a store whose reference for 2024-05
points at message 3, which is absent from the channel. -/
theorem atualizar_mensagem_sumiu_witness :
    atualizarMensagemCalendario 7 2024 5 ⟨⟨[], [("2024-05", 3)]⟩, [], 9, true, true⟩ =
      (.ok (.created 9 ("Calendário de ponto - Maio/2024",
        (renderizarCalendarioStr 2024 5 []).getD "")),
       ⟨⟨[], [("2024-05", 9)]⟩,
        [(9, ("Calendário de ponto - Maio/2024", (renderizarCalendarioStr 2024 5 []).getD ""))],
        10, true, true⟩,
       [.load, .save]) := by
  obtain ⟨h1, _h2⟩ := atualizar_mensagem_sumiu 7 2024 5 ⟨⟨[], [("2024-05", 3)]⟩, [], 9, true, true⟩
    3 ((renderizarCalendarioStr 2024 5 []).getD "") "Maio"
    (by decide) rfl rfl (by decide) rfl (by decide) rfl
  rw [h1]
  rfl

/-- Closed form of the publisher when no reference is stored for the month: it
creates the message and saves the new reference. -/
theorem atualizar_mensagem_nova (ch y m : Nat) (s : PlatformState) (desc nomeMes : String)
    (hch : ch ≠ 0) (hcanal : s.canalOk = true) (hsend : s.sendOk = true)
    (hrender : renderizarCalendarioStr y m s.doc.registros = some desc)
    (hmes : mesesPt m = some nomeMes)
    (href : dget s.doc.mensagens (fmtYM y m) = none) :
    atualizarMensagemCalendario ch y m s =
      (.ok (.created s.nextId ("Calendário de ponto - " ++ nomeMes ++ "/" ++ natToStr y, desc)),
       { s with
          canalMsgs := s.canalMsgs
            ++ [(s.nextId, ("Calendário de ponto - " ++ nomeMes ++ "/" ++ natToStr y, desc))],
          nextId := s.nextId + 1,
          doc := { s.doc with mensagens := dput s.doc.mensagens (fmtYM y m) s.nextId } },
       [.load, .save]) := by
  unfold atualizarMensagemCalendario
  rw [if_neg hch]
  simp only [hcanal, hrender, hmes, href, hsend]
  rfl

/-- Closed form of the publisher when the stored reference's message still exists:
it edits that message in place and does not save. -/
theorem atualizar_edita (ch y m : Nat) (s : PlatformState) (mid : Nat)
    (v : String × String) (desc nomeMes : String)
    (hch : ch ≠ 0) (hcanal : s.canalOk = true)
    (hrender : renderizarCalendarioStr y m s.doc.registros = some desc)
    (hmes : mesesPt m = some nomeMes)
    (href : dget s.doc.mensagens (fmtYM y m) = some mid)
    (hexists : dget s.canalMsgs mid = some v) :
    atualizarMensagemCalendario ch y m s =
      (.ok (.edited mid ("Calendário de ponto - " ++ nomeMes ++ "/" ++ natToStr y, desc)),
       { s with
          canalMsgs := dput s.canalMsgs mid
            ("Calendário de ponto - " ++ nomeMes ++ "/" ++ natToStr y, desc) },
       [.load]) := by
  unfold atualizarMensagemCalendario
  rw [if_neg hch]
  simp only [hcanal, hrender, hmes, href, hexists]
  rfl

/-- C4: publishing is idempotent.  Under an operational channel, with a fresh id for
any newly created message, the first publish either edits or creates a message with
the month's rendered content; a second publish with no intervening record change
computes the identical content, edits the same message, and leaves the state exactly
as it was — no second message and no second month reference are created. -/
theorem atualizar_idempotente (ch y m : Nat) (s : PlatformState) (desc nomeMes : String)
    (hch : ch ≠ 0) (hcanal : s.canalOk = true) (hsend : s.sendOk = true)
    (hrender : renderizarCalendarioStr y m s.doc.registros = some desc)
    (hmes : mesesPt m = some nomeMes)
    (hfresh : dget s.canalMsgs s.nextId = none) :
    ∃ (mid : Nat) (a : PubAct) (s1 : PlatformState) (t1 : List Evt),
      atualizarMensagemCalendario ch y m s = (.ok a, s1, t1)
      ∧ (a = .edited mid ("Calendário de ponto - " ++ nomeMes ++ "/" ++ natToStr y, desc)
         ∨ a = .created mid ("Calendário de ponto - " ++ nomeMes ++ "/" ++ natToStr y, desc))
      ∧ atualizarMensagemCalendario ch y m s1 =
          (.ok (.edited mid ("Calendário de ponto - " ++ nomeMes ++ "/" ++ natToStr y, desc)),
           s1, [.load]) := by
  rcases href : dget s.doc.mensagens (fmtYM y m) with _ | mid
  · have h1 := atualizar_mensagem_nova ch y m s desc nomeMes hch hcanal hsend hrender hmes href
    refine ⟨s.nextId, _, _, _, h1, Or.inr rfl, ?_⟩
    have hex1 : dget (s.canalMsgs
        ++ [(s.nextId, ("Calendário de ponto - " ++ nomeMes ++ "/" ++ natToStr y, desc))])
        s.nextId
        = some ("Calendário de ponto - " ++ nomeMes ++ "/" ++ natToStr y, desc) := by
      rw [dget_append_of_none _ _ hfresh]
      simp [dget]
    have h2 := atualizar_edita ch y m
      { s with
          canalMsgs := s.canalMsgs
            ++ [(s.nextId, ("Calendário de ponto - " ++ nomeMes ++ "/" ++ natToStr y, desc))],
          nextId := s.nextId + 1,
          doc := { s.doc with mensagens := dput s.doc.mensagens (fmtYM y m) s.nextId } }
      s.nextId ("Calendário de ponto - " ++ nomeMes ++ "/" ++ natToStr y, desc) desc nomeMes
      hch hcanal hrender hmes (dget_dput_self _ _ _) hex1
    rw [h2, dput_idem _ hex1]
  · by_cases hex : (dget s.canalMsgs mid).isSome = true
    · obtain ⟨v, hv⟩ := Option.isSome_iff_exists.mp hex
      have h1 := atualizar_edita ch y m s mid v desc nomeMes hch hcanal hrender hmes href hv
      refine ⟨mid, _, _, _, h1, Or.inl rfl, ?_⟩
      have hex1 : dget (dput s.canalMsgs mid
            ("Calendário de ponto - " ++ nomeMes ++ "/" ++ natToStr y, desc)) mid
          = some ("Calendário de ponto - " ++ nomeMes ++ "/" ++ natToStr y, desc) :=
        dget_dput_self _ _ _
      have h2 := atualizar_edita ch y m
        { s with
            canalMsgs := dput s.canalMsgs mid
              ("Calendário de ponto - " ++ nomeMes ++ "/" ++ natToStr y, desc) }
        mid ("Calendário de ponto - " ++ nomeMes ++ "/" ++ natToStr y, desc) desc nomeMes
        hch hcanal hrender hmes href hex1
      rw [h2, dput_idem _ hex1]
    · rw [Option.not_isSome_iff_eq_none] at hex
      have h1 := (atualizar_mensagem_sumiu ch y m s mid desc nomeMes
        hch hcanal hsend hrender hmes href hex).1
      refine ⟨s.nextId, _, _, _, h1, Or.inr rfl, ?_⟩
      have hex1 : dget (s.canalMsgs
          ++ [(s.nextId, ("Calendário de ponto - " ++ nomeMes ++ "/" ++ natToStr y, desc))])
          s.nextId
          = some ("Calendário de ponto - " ++ nomeMes ++ "/" ++ natToStr y, desc) := by
        rw [dget_append_of_none _ _ hfresh]
        simp [dget]
      have h2 := atualizar_edita ch y m
        { s with
            canalMsgs := s.canalMsgs
              ++ [(s.nextId, ("Calendário de ponto - " ++ nomeMes ++ "/" ++ natToStr y, desc))],
            nextId := s.nextId + 1,
            doc := { s.doc with mensagens := dput s.doc.mensagens (fmtYM y m) s.nextId } }
        s.nextId ("Calendário de ponto - " ++ nomeMes ++ "/" ++ natToStr y, desc) desc nomeMes
        hch hcanal hrender hmes (dget_dput_self _ _ _) hex1
      rw [h2, dput_idem _ hex1]

/-- Witness for `atualizar_idempotente`: empty store, operational channel. -/
theorem atualizar_idempotente_witness :
    ∃ (mid : Nat) (a : PubAct) (s1 : PlatformState) (t1 : List Evt),
      atualizarMensagemCalendario 7 2024 5 ⟨⟨[], []⟩, [], 1, true, true⟩ = (.ok a, s1, t1)
      ∧ (a = .edited mid ("Calendário de ponto - " ++ "Maio" ++ "/" ++ natToStr 2024,
            (renderizarCalendarioStr 2024 5 []).getD "")
         ∨ a = .created mid ("Calendário de ponto - " ++ "Maio" ++ "/" ++ natToStr 2024,
            (renderizarCalendarioStr 2024 5 []).getD ""))
      ∧ atualizarMensagemCalendario 7 2024 5 s1 =
          (.ok (.edited mid ("Calendário de ponto - " ++ "Maio" ++ "/" ++ natToStr 2024,
            (renderizarCalendarioStr 2024 5 []).getD "")),
           s1, [.load]) :=
  atualizar_idempotente 7 2024 5 ⟨⟨[], []⟩, [], 1, true, true⟩
    ((renderizarCalendarioStr 2024 5 []).getD "") "Maio"
    (by decide) rfl rfl rfl rfl rfl

/-- C6 fails on the code for the refresh-calendar command: with a configured channel,
`comando_atualizar_calendario` given month 13 loads the stored document (the trace
starts with a load) and then raises from rendering; no user-facing rejection message
is produced and no validation precedes the Document access. -/
theorem mes_invalido_counterexample :
    comando_atualizar_calendario 2024 13 7 ⟨⟨[], []⟩, [], 1, true, true⟩
      = (.error .renderError, ⟨⟨[], []⟩, [], 1, true, true⟩, [.load])
    ∧ Evt.load ∈ (comando_atualizar_calendario 2024 13 7 ⟨⟨[], []⟩, [], 1, true, true⟩).2.2 := by
  constructor
  · decide
  · decide

/-- C6 amended: only `comando_calendario` (show-calendar) validates the month — an
out-of-range value is answered with the fixed user-facing message and no store
access.  `comando_atualizar_calendario` (refresh-calendar) performs no validation:
with a configured, reachable channel it loads the document and then fails with the
renderer's error, sending no rejection message. -/
theorem validacao_mes (ano mes : Int) (ch : Nat) (s : PlatformState)
    (hmes : mes < 1 ∨ mes > 12) :
    comando_calendario ano mes s =
      (.ok [.text "Mês inválido. Use um valor entre 1 e 12. Ex.: `!calendario 2024 5`"], [])
    ∧ (ch ≠ 0 → s.canalOk = true →
        comando_atualizar_calendario ano mes ch s = (.error .renderError, s, [.load])) := by
  have hrender : renderizarCalendarioStr ano.toNat mes.toNat s.doc.registros = none := by
    have hm : ¬(1 ≤ ano.toNat ∧ ano.toNat ≤ 9999 ∧ 1 ≤ mes.toNat ∧ mes.toNat ≤ 12) := by
      omega
    simp only [renderizarCalendarioStr, renderizarCalendario, if_neg hm]
    rfl
  constructor
  · unfold comando_calendario
    rw [if_pos hmes]
  · intro hch hcanal
    unfold comando_atualizar_calendario atualizarMensagemCalendario
    rw [if_neg hch]
    simp only [hcanal, hrender]
    rfl

/-- Witness for `validacao_mes` at month 13. -/
theorem validacao_mes_witness :
    comando_calendario 2024 13 ⟨⟨[], []⟩, [], 1, true, true⟩ =
      (.ok [.text "Mês inválido. Use um valor entre 1 e 12. Ex.: `!calendario 2024 5`"], [])
    ∧ comando_atualizar_calendario 2024 13 7 ⟨⟨[], []⟩, [], 1, true, true⟩
        = (.error .renderError, ⟨⟨[], []⟩, [], 1, true, true⟩, [.load]) := by
  obtain ⟨h1, h2⟩ := validacao_mes 2024 13 7 ⟨⟨[], []⟩, [], 1, true, true⟩ (by decide)
  exact ⟨h1, h2 (by decide) rfl⟩

/-! ## The renderer claims -/

/-- C7: for any valid year/month with no stored record dated in that month, the
renderer returns the code-fenced grid (header plus week rows) followed by the fixed
"no records yet" notice — never an error — and show-calendar answers with an embed
carrying exactly that text after a single load. -/
theorem renderizar_sem_registros (y m : Nat) (regs : Registros) (s : PlatformState)
    (hy1 : 1 ≤ y) (hy2 : y ≤ 9999) (hm1 : 1 ≤ m) (hm2 : m ≤ 12)
    (hvazio : ∀ p ∈ regs, pyStartswith p.1 (fmtYM y m) = false)
    (hdoc : s.doc.registros = regs) :
    renderizarCalendario y m regs =
      some (("```" :: cabecalho :: ((monthWeeks y m).map weekRow ++ ["```"]))
        ++ [noticeSemRegistros])
    ∧ ∃ nomeMes, mesesPt m = some nomeMes
      ∧ comando_calendario (y : Int) (m : Int) s =
        (.ok [.embed ("Calendário de ponto - " ++ nomeMes ++ "/" ++ natToStr y,
          pyJoin "\n" (("```" :: cabecalho :: ((monthWeeks y m).map weekRow ++ ["```"]))
            ++ [noticeSemRegistros]))], [.load]) := by
  have hfil : regs.filter (fun p => pyStartswith p.1 (fmtYM y m)) = [] := by
    rw [List.filter_eq_nil_iff]
    intro p hp
    simp [hvazio p hp]
  have hrender : renderizarCalendario y m regs =
      some (("```" :: cabecalho :: ((monthWeeks y m).map weekRow ++ ["```"]))
        ++ [noticeSemRegistros]) := by
    unfold renderizarCalendario
    rw [if_pos ⟨hy1, hy2, hm1, hm2⟩]
    simp only [hfil]
    rfl
  obtain ⟨nomeMes, hmes⟩ : ∃ nm, mesesPt m = some nm := by
    interval_cases m <;> exact ⟨_, rfl⟩
  refine ⟨hrender, nomeMes, hmes, ?_⟩
  have hint : ¬((m : Int) < 1 ∨ (m : Int) > 12) := by omega
  unfold comando_calendario
  rw [if_neg hint]
  have htn : (Int.toNat (m : Int)) = m := Int.toNat_natCast m
  have hty : (Int.toNat (y : Int)) = y := Int.toNat_natCast y
  rw [htn, hty, hdoc]
  simp only [renderizarCalendarioStr, hrender, Option.map_some, hmes]
  rfl

/-- Witness for `renderizar_sem_registros`: show-calendar(2024, 5) on an empty store. -/
theorem renderizar_sem_registros_witness :
    renderizarCalendario 2024 5 [] =
      some (("```" :: cabecalho :: ((monthWeeks 2024 5).map weekRow ++ ["```"]))
        ++ [noticeSemRegistros])
    ∧ ∃ nomeMes, mesesPt 5 = some nomeMes
      ∧ comando_calendario (2024 : Int) (5 : Int) ⟨⟨[], []⟩, [], 1, true, true⟩ =
        (.ok [.embed ("Calendário de ponto - " ++ nomeMes ++ "/" ++ natToStr 2024,
          pyJoin "\n" (("```" :: cabecalho :: ((monthWeeks 2024 5).map weekRow ++ ["```"]))
            ++ [noticeSemRegistros]))], [.load]) :=
  renderizar_sem_registros 2024 5 [] ⟨⟨[], []⟩, [], 1, true, true⟩
    (by decide) (by decide) (by decide) (by decide) (by simp) rfl

/-! ## Decimal formatting lemmas -/

theorem natDigitsRevAux_fuelIndep : ∀ f g n, n ≤ f → n ≤ g →
    natDigitsRevAux f n = natDigitsRevAux g n := by
  intro f
  induction f with
  | zero =>
    intro g n hf _
    interval_cases n
    cases g <;> rfl
  | succ f ih =>
    intro g n hf hg
    cases n with
    | zero => cases g <;> rfl
    | succ n =>
      cases g with
      | zero => omega
      | succ g =>
        show ((n + 1) % 10) :: natDigitsRevAux f ((n + 1) / 10)
          = ((n + 1) % 10) :: natDigitsRevAux g ((n + 1) / 10)
        rw [ih g ((n + 1) / 10) (by omega) (by omega)]

theorem natDigitsRevAux_lt10 : ∀ f n, ∀ d ∈ natDigitsRevAux f n, d < 10 := by
  intro f
  induction f with
  | zero => intro n d hd; cases n <;> simp [natDigitsRevAux] at hd
  | succ f ih =>
    intro n d hd
    cases n with
    | zero => simp [natDigitsRevAux] at hd
    | succ n =>
      rcases List.mem_cons.mp hd with h | h
      · omega
      · exact ih _ _ h

theorem natToStr_data_pos {n : Nat} (h : 0 < n) :
    (natToStr n).data = ((natDigitsRevAux n n).reverse.map Nat.digitChar) := by
  unfold natToStr
  rw [if_neg (by omega)]

theorem digitChar_isDigit : ∀ d, d < 10 → (Nat.digitChar d).isDigit = true := by decide

theorem natToStr_all_digits (n : Nat) : ∀ c ∈ (natToStr n).data, c.isDigit = true := by
  intro c hc
  rcases Nat.eq_zero_or_pos n with h0 | hpos
  · subst h0
    have h1 : c ∈ ['0'] := hc
    rw [List.mem_singleton] at h1
    rw [h1]; rfl
  · rw [natToStr_data_pos hpos] at hc
    obtain ⟨d, hd, hdc⟩ := List.mem_map.mp hc
    rw [← hdc]
    exact digitChar_isDigit d (natDigitsRevAux_lt10 n n d (List.mem_reverse.mp hd))

theorem natToStr_len_lt10 : ∀ n, n < 10 → (natToStr n).data.length = 1 := by decide

theorem natToStr_len_lt100 : ∀ n, n < 100 → 10 ≤ n → (natToStr n).data.length = 2 := by decide

theorem natToStr_len_step (n : Nat) (h : 10 ≤ n) :
    (natToStr n).data.length = (natToStr (n / 10)).data.length + 1 := by
  obtain ⟨k, hk⟩ : ∃ k, n = k + 1 := ⟨n - 1, by omega⟩
  subst hk
  rw [natToStr_data_pos (by omega), natToStr_data_pos (by omega : 0 < (k + 1) / 10)]
  show (((k + 1) % 10 :: natDigitsRevAux k ((k + 1) / 10)).reverse.map Nat.digitChar).length = _
  rw [natDigitsRevAux_fuelIndep k ((k + 1) / 10) ((k + 1) / 10) (by omega) (by omega)]
  simp

theorem natToStr_len3 : ∀ n, 100 ≤ n → n < 1000 → (natToStr n).data.length = 3 := by
  intro n h1 h2
  rw [natToStr_len_step n (by omega), natToStr_len_lt100 (n / 10) (by omega) (by omega)]

theorem natToStr_len4 : ∀ n, 1000 ≤ n → n < 10000 → (natToStr n).data.length = 4 := by
  intro n h1 h2
  rw [natToStr_len_step n (by omega), natToStr_len3 (n / 10) (by omega) (by omega)]

theorem pad02_data (n : Nat) :
    (pad02 n).data = if n < 10 then '0' :: (natToStr n).data else (natToStr n).data := by
  unfold pad02
  split <;> simp [String.data_append]

theorem pad02_len (n : Nat) (h : n < 100) : (pad02 n).data.length = 2 := by
  rw [pad02_data]
  split
  · simp [natToStr_len_lt10 n (by omega)]
  · simp [natToStr_len_lt100 n (by omega) (by omega)]

theorem pad04_data (n : Nat) :
    (pad04 n).data =
      if n < 10 then '0' :: '0' :: '0' :: (natToStr n).data
      else if n < 100 then '0' :: '0' :: (natToStr n).data
      else if n < 1000 then '0' :: (natToStr n).data
      else (natToStr n).data := by
  unfold pad04
  split
  · simp [String.data_append]
  · split
    · simp [String.data_append]
    · split
      · simp [String.data_append]
      · rfl

theorem pad04_len (n : Nat) (h : n < 10000) : (pad04 n).data.length = 4 := by
  rw [pad04_data]
  split
  · simp [natToStr_len_lt10 n (by omega)]
  · split
    · simp [natToStr_len_lt100 n (by omega) (by omega)]
    · split
      · simp [natToStr_len3 n (by omega) (by omega)]
      · simp [natToStr_len4 n (by omega) (by omega)]

theorem pad02_all_digits (n : Nat) : ∀ c ∈ (pad02 n).data, c.isDigit = true := by
  rw [pad02_data]
  split
  · intro c hc
    rcases List.mem_cons.mp hc with h | h
    · rw [h]; rfl
    · exact natToStr_all_digits n c h
  · exact natToStr_all_digits n

theorem pad04_all_digits (n : Nat) : ∀ c ∈ (pad04 n).data, c.isDigit = true := by
  rw [pad04_data]
  have hz : ('0' : Char).isDigit = true := rfl
  split
  · intro c hc
    simp only [List.mem_cons] at hc
    rcases hc with h | h | h | h
    · rw [h]; rfl
    · rw [h]; rfl
    · rw [h]; rfl
    · exact natToStr_all_digits n c h
  · split
    · intro c hc
      simp only [List.mem_cons] at hc
      rcases hc with h | h | h
      · rw [h]; rfl
      · rw [h]; rfl
      · exact natToStr_all_digits n c h
    · split
      · intro c hc
        simp only [List.mem_cons] at hc
        rcases hc with h | h
        · rw [h]; rfl
        · exact natToStr_all_digits n c h
      · exact natToStr_all_digits n

/-! ## Digit values and date parsing -/

theorem digitChar_val : ∀ d, d < 10 → (Nat.digitChar d).toNat - 48 = d := by decide

theorem foldl_map_digitChar : ∀ (ds : List Nat), (∀ d ∈ ds, d < 10) → ∀ acc : Nat,
    (ds.map Nat.digitChar).foldl (fun a c => 10 * a + (c.toNat - 48)) acc
      = ds.foldl (fun a d => 10 * a + d) acc := by
  intro ds
  induction ds with
  | nil => intro _ _; rfl
  | cons d t ih =>
    intro hlt acc
    simp only [List.map_cons, List.foldl_cons]
    rw [digitChar_val d (hlt d (List.mem_cons_self d t))]
    exact ih (fun x hx => hlt x (List.mem_cons_of_mem d hx)) _

theorem foldl_digits_rev : ∀ f n acc, n ≤ f →
    (natDigitsRevAux f n).reverse.foldl (fun a d => 10 * a + d) acc
      = acc * 10 ^ (natDigitsRevAux f n).length + n := by
  intro f
  induction f with
  | zero =>
    intro n acc hf
    interval_cases n
    simp [natDigitsRevAux]
  | succ f ih =>
    intro n acc hf
    cases n with
    | zero => simp [natDigitsRevAux]
    | succ n =>
      have hstep : natDigitsRevAux (f + 1) (n + 1)
          = ((n + 1) % 10) :: natDigitsRevAux f ((n + 1) / 10) := rfl
      rw [hstep, List.reverse_cons, List.foldl_append]
      rw [ih ((n + 1) / 10) acc (by omega)]
      simp only [List.foldl_cons, List.foldl_nil, List.length_cons]
      rw [pow_succ, ← mul_assoc]
      generalize (acc * 10 ^ (natDigitsRevAux f ((n + 1) / 10)).length) = t
      omega

theorem digitsToNat_natToStr (n : Nat) : digitsToNat (natToStr n).data = n := by
  rcases Nat.eq_zero_or_pos n with h0 | hpos
  · subst h0; rfl
  · rw [natToStr_data_pos hpos]
    unfold digitsToNat
    rw [foldl_map_digitChar _ (fun d hd => natDigitsRevAux_lt10 n n d (List.mem_reverse.mp hd)) 0]
    rw [List.foldl_reverse]
    have := foldl_digits_rev n n 0 (le_refl n)
    rw [List.foldl_reverse] at this
    rw [this]
    simp

theorem digitsToNat_cons_zero (l : List Char) : digitsToNat ('0' :: l) = digitsToNat l := rfl

theorem digitsToNat_pad02 (n : Nat) : digitsToNat (pad02 n).data = n := by
  rw [pad02_data]
  split
  · rw [digitsToNat_cons_zero, digitsToNat_natToStr]
  · rw [digitsToNat_natToStr]

theorem digitsToNat_pad04 (n : Nat) : digitsToNat (pad04 n).data = n := by
  rw [pad04_data]
  split
  · rw [digitsToNat_cons_zero, digitsToNat_cons_zero, digitsToNat_cons_zero,
      digitsToNat_natToStr]
  · split
    · rw [digitsToNat_cons_zero, digitsToNat_cons_zero, digitsToNat_natToStr]
    · split
      · rw [digitsToNat_cons_zero, digitsToNat_natToStr]
      · rw [digitsToNat_natToStr]

/-! ## `splitOnChar` lemmas -/

theorem splitOnChar_not_mem (sep : Char) : ∀ l : List Char, sep ∉ l →
    splitOnChar sep l = [l] := by
  intro l
  induction l with
  | nil => intro _; rfl
  | cons c t ih =>
    intro h
    have hc : ¬ c = sep := fun hh => h (hh ▸ List.mem_cons_self c t)
    have ht : sep ∉ t := fun hh => h (List.mem_cons_of_mem c hh)
    unfold splitOnChar
    rw [if_neg hc, ih ht]

theorem splitOnChar_cons (sep c : Char) (t : List Char) :
    splitOnChar sep (c :: t) =
      if c = sep then [] :: splitOnChar sep t
      else match splitOnChar sep t with
        | [] => [[c]]
        | p :: ps => (c :: p) :: ps := rfl

theorem splitOnChar_append (sep : Char) : ∀ l₁ l₂ : List Char, sep ∉ l₁ →
    splitOnChar sep (l₁ ++ sep :: l₂) = l₁ :: splitOnChar sep l₂ := by
  intro l₁
  induction l₁ with
  | nil =>
    intro l₂ _
    rw [List.nil_append, splitOnChar_cons, if_pos rfl]
  | cons c t ih =>
    intro l₂ h
    have hc : ¬ c = sep := fun hh => h (hh ▸ List.mem_cons_self c t)
    have ht : sep ∉ t := fun hh => h (List.mem_cons_of_mem c hh)
    rw [List.cons_append, splitOnChar_cons, if_neg hc, ih l₂ ht]

theorem isDigit_ne_dash {c : Char} (h : c.isDigit = true) : c ≠ '-' := by
  intro hh
  rw [hh] at h
  exact absurd h (by decide)

theorem dash_not_mem_digits {l : List Char} (h : ∀ c ∈ l, c.isDigit = true) : '-' ∉ l := by
  intro hmem
  exact absurd (h '-' hmem) (by decide)

/-! ## `fmtDate` facts -/

theorem fmtDate_data (y m d : Nat) :
    (fmtDate y m d).data = (pad04 y).data ++ '-' :: ((pad02 m).data ++ '-' :: (pad02 d).data) := by
  unfold fmtDate
  simp [String.data_append]

theorem fmtYM_data (y m : Nat) :
    (fmtYM y m).data = (pad04 y).data ++ '-' :: (pad02 m).data := by
  unfold fmtYM
  simp [String.data_append]

theorem splitOnChar_fmtDate (y m d : Nat) :
    splitOnChar '-' (fmtDate y m d).data = [(pad04 y).data, (pad02 m).data, (pad02 d).data] := by
  rw [fmtDate_data]
  rw [splitOnChar_append '-' _ _ (dash_not_mem_digits (pad04_all_digits y))]
  rw [splitOnChar_append '-' _ _ (dash_not_mem_digits (pad02_all_digits m))]
  rw [splitOnChar_not_mem '-' _ (dash_not_mem_digits (pad02_all_digits d))]

theorem daysInMonth_le_31 (y m : Nat) : daysInMonth y m ≤ 31 := by
  unfold daysInMonth
  split <;> (try split) <;> omega

/-- `datetime.strptime` succeeds on every key the program writes and returns the
date's components. -/
theorem parse_fmtDate (y m d : Nat) (hy1 : 1 ≤ y) (hy2 : y ≤ 9999) (hm1 : 1 ≤ m)
    (hm2 : m ≤ 12) (hd1 : 1 ≤ d) (hd2 : d ≤ daysInMonth y m) :
    parseDateStr (fmtDate y m d) = some (y, m, d) := by
  have hd31 : d ≤ 31 := le_trans hd2 (daysInMonth_le_31 y m)
  unfold parseDateStr
  rw [splitOnChar_fmtDate]
  have hys : ((pad04 y).data.length = 4 ∧ (pad04 y).data.all (·.isDigit) = true ∧
      (pad02 m).data ≠ [] ∧ (pad02 m).data.length ≤ 2 ∧ (pad02 m).data.all (·.isDigit) = true ∧
      (pad02 d).data ≠ [] ∧ (pad02 d).data.length ≤ 2 ∧ (pad02 d).data.all (·.isDigit) = true) := by
    refine ⟨pad04_len y (by omega), ?_, ?_, ?_, ?_, ?_, ?_, ?_⟩
    · rw [List.all_eq_true]; exact pad04_all_digits y
    · intro hh
      have := pad02_len m (by omega)
      rw [hh] at this
      simp at this
    · rw [pad02_len m (by omega)]
    · rw [List.all_eq_true]; exact pad02_all_digits m
    · intro hh
      have := pad02_len d (by omega)
      rw [hh] at this
      simp at this
    · rw [pad02_len d (by omega)]
    · rw [List.all_eq_true]; exact pad02_all_digits d
  dsimp only
  rw [if_pos hys]
  simp only [digitsToNat_pad04, digitsToNat_pad02]
  rw [if_pos ⟨hy1, hm1, hm2, hd1, hd2⟩]

/-! ## Grid structure lemmas -/

theorem chunk7_len : ∀ f l, l.length ≤ f → 7 ∣ l.length → ∀ c ∈ chunk7 f l, c.length = 7 := by
  intro f
  induction f with
  | zero =>
    intro l hf _ c hc
    cases l with
    | nil => simp [chunk7] at hc
    | cons x xs => simp at hf
  | succ f ih =>
    intro l hf hdvd c hc
    cases l with
    | nil => simp [chunk7] at hc
    | cons x xs =>
      have hlen : 7 ≤ (x :: xs).length := Nat.le_of_dvd (by simp) hdvd
      rcases List.mem_cons.mp hc with h | h
      · rw [h, List.length_take]
        omega
      · have hdrop : ((x :: xs).drop 7).length = (x :: xs).length - 7 := List.length_drop 7 _
        exact ih _ (by simp at hf ⊢; omega) (by rw [hdrop]; omega) c h

theorem chunk7_subset : ∀ f l c, c ∈ chunk7 f l → ∀ x ∈ c, x ∈ l := by
  intro f
  induction f with
  | zero =>
    intro l c hc x hx
    cases l with
    | nil => simp [chunk7] at hc
    | cons a t =>
      have : c = a :: t := by simpa [chunk7] using hc
      rw [this] at hx
      exact hx
  | succ f ih =>
    intro l c hc x hx
    cases l with
    | nil => simp [chunk7] at hc
    | cons a t =>
      rcases List.mem_cons.mp hc with h | h
      · rw [h] at hx
        exact List.mem_of_mem_take hx
      · exact List.mem_of_mem_drop (ih _ c h x hx)

theorem cells_len_dvd (y m : Nat) : 7 ∣ (cells y m).length := by
  unfold cells
  simp only [List.length_append, List.length_replicate, List.length_range']
  omega

theorem cells_mem_le (y m : Nat) : ∀ x ∈ cells y m, x ≤ daysInMonth y m := by
  intro x hx
  unfold cells at hx
  simp only [List.mem_append, List.mem_replicate, List.mem_range'] at hx
  rcases hx with (h | h) | h
  · omega
  · omega
  · omega

theorem monthWeeks_mem_len (y m : Nat) : ∀ w ∈ monthWeeks y m, w.length = 7 :=
  chunk7_len _ _ (le_refl _) (cells_len_dvd y m)

theorem monthWeeks_mem_le31 (y m : Nat) : ∀ w ∈ monthWeeks y m, ∀ x ∈ w, x ≤ 31 := by
  intro w hw x hx
  exact le_trans (cells_mem_le y m x (chunk7_subset _ _ w hw x hx)) (daysInMonth_le_31 y m)

theorem head?_append_of_ne_nil {α : Type} (l₁ l₂ : List α) (h : l₁ ≠ []) :
    (l₁ ++ l₂).head? = l₁.head? := by
  cases l₁ with
  | nil => exact absurd rfl h
  | cons a t => rfl

theorem pyJoin_head (sep : String) (a : String) (l : List String) (h : a.data ≠ []) :
    (pyJoin sep (a :: l)).data.head? = a.data.head? := by
  cases l with
  | nil => rfl
  | cons b t =>
    show ((a ++ sep) ++ pyJoin sep (b :: t)).data.head? = _
    rw [String.data_append, String.data_append]
    rw [head?_append_of_ne_nil _ _ (by simp [h])]
    rw [head?_append_of_ne_nil _ _ h]

theorem cellStr_ne_nil : ∀ d, d < 32 → (cellStr d).data ≠ [] := by decide

theorem cellStr_head_ne_S : ∀ d, d < 32 → (cellStr d).data.head? ≠ some 'S' := by decide

theorem weekRow_ne_cabecalho (y m : Nat) (w : List Nat) (hw : w ∈ monthWeeks y m) :
    weekRow w ≠ cabecalho := by
  have hlen := monthWeeks_mem_len y m w hw
  cases w with
  | nil => simp at hlen
  | cons d rest =>
    intro heq
    have hd31 : d < 32 := by
      have := monthWeeks_mem_le31 y m _ hw d (List.mem_cons_self d rest)
      omega
    have hhead : (weekRow (d :: rest)).data.head? = (cellStr d).data.head? := by
      unfold weekRow
      rw [List.map_cons]
      exact pyJoin_head " " (cellStr d) _ (cellStr_ne_nil d hd31)
    rw [heq] at hhead
    have : (cabecalho).data.head? = some 'S' := rfl
    rw [this] at hhead
    exact cellStr_head_ne_S d hd31 hhead.symm

/-! ## Detail-section lemmas -/

theorem diasDetalhes_cons (m : Nat) (rm : Registros) (k : String) (t : List String) :
    diasDetalhes m rm (k :: t) =
      match parseDateStr k with
      | none => none
      | some ymd =>
        match diasDetalhes m rm t with
        | none => none
        | some rest =>
          some (("\n__Dia " ++ pad02 ymd.2.2 ++ "/" ++ pad02 m ++ "__")
            :: ((((dget rm k).getD []).map (fun p => linhaUsuario p.2)) ++ rest)) := rfl

theorem diasDetalhes_some (m : Nat) (rm : Registros) : ∀ ks : List String,
    (∀ k ∈ ks, ∃ p, parseDateStr k = some p) →
    ∃ det, diasDetalhes m rm ks = some det := by
  intro ks
  induction ks with
  | nil => intro _; exact ⟨[], rfl⟩
  | cons k t ih =>
    intro h
    obtain ⟨p, hp⟩ := h k (List.mem_cons_self k t)
    obtain ⟨det, hdet⟩ := ih (fun k' hk' => h k' (List.mem_cons_of_mem _ hk'))
    refine ⟨("\n__Dia " ++ pad02 p.2.2 ++ "/" ++ pad02 m ++ "__")
      :: ((((dget rm k).getD []).map (fun q => linhaUsuario q.2)) ++ det), ?_⟩
    rw [diasDetalhes_cons, hp, hdet]

theorem str_append_head (s t : String) (h : s.data ≠ []) :
    (s ++ t).data.head? = s.data.head? := by
  rw [String.data_append]
  exact head?_append_of_ne_nil _ _ h

theorem str_append_ne_nil (s t : String) (h : s.data ≠ []) : (s ++ t).data ≠ [] := by
  rw [String.data_append]
  simp [h]

theorem dia_line_head (a b : String) :
    ("\n__Dia " ++ a ++ "/" ++ b ++ "__").data.head? = some '\n' := by
  rw [str_append_head _ _ (str_append_ne_nil _ _ (str_append_ne_nil _ _
    (str_append_ne_nil _ _ (by decide))))]
  rw [str_append_head _ _ (str_append_ne_nil _ _ (str_append_ne_nil _ _ (by decide)))]
  rw [str_append_head _ _ (str_append_ne_nil _ _ (by decide))]
  rw [str_append_head _ _ (by decide)]
  decide

theorem linhaUsuario_head (info : Registro) :
    (linhaUsuario info).data.head? = some '-' := by
  unfold linhaUsuario
  rw [str_append_head _ _ (str_append_ne_nil _ _ (str_append_ne_nil _ _
    (str_append_ne_nil _ _ (str_append_ne_nil _ _ (by decide)))))]
  rw [str_append_head _ _ (str_append_ne_nil _ _ (str_append_ne_nil _ _
    (str_append_ne_nil _ _ (by decide))))]
  rw [str_append_head _ _ (str_append_ne_nil _ _ (str_append_ne_nil _ _ (by decide)))]
  rw [str_append_head _ _ (str_append_ne_nil _ _ (by decide))]
  rw [str_append_head _ _ (by decide)]
  decide

theorem diasDetalhes_head (m : Nat) (rm : Registros) : ∀ (ks : List String) (det : List String),
    diasDetalhes m rm ks = some det →
    ∀ l ∈ det, l.data.head? = some '\n' ∨ l.data.head? = some '-' := by
  intro ks
  induction ks with
  | nil =>
    intro det h l hl
    have : det = [] := by
      have h' : some ([] : List String) = some det := h
      exact (Option.some_inj.mp h').symm
    rw [this] at hl
    simp at hl
  | cons k t ih =>
    intro det h l hl
    rw [diasDetalhes_cons] at h
    rcases hp : parseDateStr k with _ | ymd <;> rw [hp] at h
    · cases h
    · rcases hdet : diasDetalhes m rm t with _ | rest <;> rw [hdet] at h
      · cases h
      · have hdet2 := Option.some_inj.mp h
        rw [← hdet2] at hl
        rcases List.mem_cons.mp hl with hday | hrest
        · left
          rw [hday]
          exact dia_line_head _ _
        · rcases List.mem_append.mp hrest with huser | htail
          · right
            obtain ⟨p, _, hp2⟩ := List.mem_map.mp huser
            rw [← hp2]
            exact linhaUsuario_head p.2
          · exact ih rest hdet l htail

theorem diasDetalhes_mem (m : Nat) (rm : Registros) :
    ∀ (ks : List String) (det : List String) (k : String) (us : DiaMap) (uid : String)
      (info : Registro),
    diasDetalhes m rm ks = some det → k ∈ ks → dget rm k = some us → (uid, info) ∈ us →
    linhaUsuario info ∈ det := by
  intro ks
  induction ks with
  | nil => intro det k us uid info _ hk; simp at hk
  | cons k' t ih =>
    intro det k us uid info h hk hus hmem
    rw [diasDetalhes_cons] at h
    rcases hp : parseDateStr k' with _ | ymd <;> rw [hp] at h
    · cases h
    · rcases hdet : diasDetalhes m rm t with _ | rest <;> rw [hdet] at h
      · cases h
      · have hdet2 := Option.some_inj.mp h
        rw [← hdet2]
        by_cases hkk : k = k'
        · subst hkk
          rw [hus]
          refine List.mem_cons_of_mem _ (List.mem_append.mpr (Or.inl ?_))
          exact List.mem_map.mpr ⟨(uid, info), hmem, rfl⟩
        · have hkt : k ∈ t := by
            rcases List.mem_cons.mp hk with h' | h'
            · exact absurd h' hkk
            · exact h'
          exact List.mem_cons_of_mem _ (List.mem_append.mpr
            (Or.inr (ih rest k us uid info hdet hkt hus hmem)))

/-! ## Sorting and dictionary-key lemmas -/

theorem mem_insStr (x : String) : ∀ (l : List String) (a : String),
    a ∈ insStr x l ↔ a = x ∨ a ∈ l := by
  intro l
  induction l with
  | nil => intro a; simp [insStr]
  | cons y t ih =>
    intro a
    unfold insStr
    split
    · rw [List.mem_cons, ih a, List.mem_cons]
      tauto
    · rw [List.mem_cons, List.mem_cons]

theorem mem_sortStr : ∀ (l : List String) (a : String), a ∈ sortStr l ↔ a ∈ l := by
  intro l
  induction l with
  | nil => intro a; rfl
  | cons x t ih =>
    intro a
    show a ∈ insStr x (sortStr t) ↔ _
    rw [mem_insStr, ih a, List.mem_cons]

theorem dget_of_mem_nodup {β : Type} : ∀ (m : List (String × β)) (k : String) (v : β),
    (k, v) ∈ m → (m.map Prod.fst).Nodup → dget m k = some v := by
  intro m
  induction m with
  | nil => intro k v hmem _; simp at hmem
  | cons p t ih =>
    intro k v hmem hnodup
    obtain ⟨a, b⟩ := p
    rw [List.map_cons, List.nodup_cons] at hnodup
    rcases List.mem_cons.mp hmem with h | h
    · have ha : a = k := by cases h; rfl
      have hb : b = v := by cases h; rfl
      simp [dget, ha, hb]
    · have hak : ¬ a = k := by
        intro hh
        subst hh
        exact hnodup.1 (List.mem_map.mpr ⟨(a, v), h, rfl⟩)
      simp only [dget, if_neg hak]
      exact ih k v h hnodup.2

/-! ## C2: grid structure of the rendered calendar -/

theorem ne_cabecalho_of_head (l : String)
    (h : l.data.head? = some '\n' ∨ l.data.head? = some '-') : l ≠ cabecalho := by
  intro hh
  rw [hh] at h
  rcases h with h | h <;> exact absurd h (by decide)

theorem count_grid (rows resto : List String) (hrows : cabecalho ∉ rows)
    (hresto : cabecalho ∉ resto) :
    ("```" :: cabecalho :: (rows ++ ("```" :: resto))).count cabecalho = 1 := by
  rw [List.count_cons, List.count_cons, List.count_append, List.count_cons]
  rw [List.count_eq_zero.mpr hrows, List.count_eq_zero.mpr hresto]
  have h1 : ("```" == cabecalho) = false := by decide
  have h2 : (cabecalho == cabecalho) = true := by decide
  rw [h1, h2]
  rfl

/-- C2: for every valid year and month and every well-formed record set the renderer
returns a line list opening with the code fence, exactly one weekday header line, one
grid row per week of `monthdayscalendar`, and the closing fence; every grid row is
the `" "`-join of exactly 7 cell fields. -/
theorem renderizar_grade (y m : Nat) (regs : Registros)
    (hy1 : 1 ≤ y) (hy2 : y ≤ 9999) (hm1 : 1 ≤ m) (hm2 : m ≤ 12)
    (hvalid : ∀ p ∈ regs, ChaveValida p.1) :
    ∃ resto : List String,
      renderizarCalendario y m regs =
        some ("```" :: cabecalho :: ((monthWeeks y m).map weekRow ++ ("```" :: resto)))
      ∧ ("```" :: cabecalho :: ((monthWeeks y m).map weekRow ++ ("```" :: resto))).count
          cabecalho = 1
      ∧ ∀ w ∈ monthWeeks y m, ∃ campos : List String,
          campos.length = 7 ∧ weekRow w = pyJoin " " campos := by
  have hrows : cabecalho ∉ (monthWeeks y m).map weekRow := by
    intro hmem
    obtain ⟨w, hw, hwr⟩ := List.mem_map.mp hmem
    exact weekRow_ne_cabecalho y m w hw hwr
  have hcampos : ∀ w ∈ monthWeeks y m, ∃ campos : List String,
      campos.length = 7 ∧ weekRow w = pyJoin " " campos := by
    intro w hw
    refine ⟨w.map cellStr, ?_, rfl⟩
    rw [List.length_map]
    exact monthWeeks_mem_len y m w hw
  by_cases hfil : regs.filter (fun p => pyStartswith p.1 (fmtYM y m)) = []
  · refine ⟨[noticeSemRegistros], ?_, ?_, hcampos⟩
    · have hr : renderizarCalendario y m regs =
          some (("```" :: cabecalho :: ((monthWeeks y m).map weekRow ++ ["```"]))
            ++ [noticeSemRegistros]) := by
        unfold renderizarCalendario
        rw [if_pos ⟨hy1, hy2, hm1, hm2⟩]
        simp only [hfil]
        rfl
      rw [hr]
      simp
    · exact count_grid _ _ hrows (by decide)
  · have hkeys : ∀ k ∈ sortStr ((regs.filter (fun p => pyStartswith p.1 (fmtYM y m))).map
        (fun p => p.1)), ∃ p, parseDateStr k = some p := by
      intro k hk
      rw [mem_sortStr] at hk
      obtain ⟨pr, hpr, hpk⟩ := List.mem_map.mp hk
      obtain ⟨y', m', d', hy1', hy2', hm1', hm2', hd1', hd2', hkey⟩ :=
        hvalid pr (List.mem_of_mem_filter hpr)
      rw [← hpk, hkey]
      exact ⟨_, parse_fmtDate y' m' d' hy1' hy2' hm1' hm2' hd1' hd2'⟩
    obtain ⟨det, hdet⟩ := diasDetalhes_some m
      (regs.filter (fun p => pyStartswith p.1 (fmtYM y m))) _ hkeys
    refine ⟨"**Registros de ponto por dia:**" :: det, ?_, ?_, hcampos⟩
    · have hr : renderizarCalendario y m regs =
          some (("```" :: cabecalho :: ((monthWeeks y m).map weekRow ++ ["```"]))
            ++ ("**Registros de ponto por dia:**" :: det)) := by
        unfold renderizarCalendario
        rw [if_pos ⟨hy1, hy2, hm1, hm2⟩]
        simp only [if_neg hfil, hdet]
      rw [hr]
      simp
    · refine count_grid _ _ hrows ?_
      intro hmem
      rcases List.mem_cons.mp hmem with h | h
      · exact absurd h.symm (by decide)
      · exact ne_cabecalho_of_head cabecalho
          (diasDetalhes_head m _ _ det hdet cabecalho h) rfl

/-- Witness for `renderizar_grade`: November 2025 with one stored record. -/
theorem renderizar_grade_witness :
    ∃ resto : List String,
      renderizarCalendario 2025 11
          [("2025-11-28", [("42", ⟨"alice", "2025-11-28 09:00", "--:--"⟩)])] =
        some ("```" :: cabecalho :: ((monthWeeks 2025 11).map weekRow ++ ("```" :: resto)))
      ∧ ("```" :: cabecalho :: ((monthWeeks 2025 11).map weekRow ++ ("```" :: resto))).count
          cabecalho = 1
      ∧ ∀ w ∈ monthWeeks 2025 11, ∃ campos : List String,
          campos.length = 7 ∧ weekRow w = pyJoin " " campos := by
  refine renderizar_grade 2025 11 _ (by decide) (by decide) (by decide) (by decide) ?_
  intro p hp
  have hp' : p = ("2025-11-28", [("42", ⟨"alice", "2025-11-28 09:00", "--:--"⟩)]) := by
    simpa using hp
  rw [hp']
  exact ⟨2025, 11, 28, by decide, by decide, by decide, by decide, by decide, by decide,
    by decide⟩

/-! ## C8: rendering a record with only an entry stamped -/

theorem fmtDate_starts (y m d : Nat) : pyStartswith (fmtDate y m d) (fmtYM y m) = true := by
  unfold pyStartswith
  rw [decide_eq_true_eq]
  have h : (fmtDate y m d).data = (fmtYM y m).data ++ ('-' :: (pad02 d).data) := by
    rw [fmtDate_data, fmtYM_data]
    simp
  rw [h]
  exact List.take_left _ _

theorem no_space_of_digits {l : List Char} (h : ∀ c ∈ l, c.isDigit = true) : ' ' ∉ l := by
  intro hmem
  exact absurd (h ' ' hmem) (by decide)

theorem no_space_fmtDate (y m d : Nat) : ' ' ∉ (fmtDate y m d).data := by
  rw [fmtDate_data]
  intro hmem
  rcases List.mem_append.mp hmem with h | h
  · exact no_space_of_digits (pad04_all_digits y) h
  · rcases List.mem_cons.mp h with h' | h'
    · exact absurd h' (by decide)
    · rcases List.mem_append.mp h' with h2 | h2
      · exact no_space_of_digits (pad02_all_digits m) h2
      · rcases List.mem_cons.mp h2 with h3 | h3
        · exact absurd h3 (by decide)
        · exact no_space_of_digits (pad02_all_digits d) h3

theorem fmtTime_data (hh mi : Nat) :
    (fmtTime hh mi).data = (pad02 hh).data ++ ':' :: (pad02 mi).data := by
  unfold fmtTime
  simp [String.data_append]

theorem no_space_fmtTime (hh mi : Nat) : ' ' ∉ (fmtTime hh mi).data := by
  rw [fmtTime_data]
  intro hmem
  rcases List.mem_append.mp hmem with h | h
  · exact no_space_of_digits (pad02_all_digits hh) h
  · rcases List.mem_cons.mp h with h' | h'
    · exact absurd h' (by decide)
    · exact no_space_of_digits (pad02_all_digits mi) h'

theorem fmtTime_len (hh mi : Nat) (h1 : hh < 100) (h2 : mi < 100) :
    (fmtTime hh mi).data.length = 5 := by
  rw [fmtTime_data]
  simp [pad02_len hh h1, pad02_len mi h2]

theorem fmtHora_stamp (ds hm : String) (hds : ' ' ∉ ds.data) (hhm : ' ' ∉ hm.data)
    (hlen : hm.data.length = 5) : fmtHora (ds ++ " " ++ hm) = hm := by
  have hdata : (ds ++ " " ++ hm).data = ds.data ++ (' ' :: hm.data) := by
    rw [String.data_append, String.data_append]
    simp
  unfold fmtHora
  have hne : ¬ (ds ++ " " ++ hm) = "--:--" := by
    intro hh
    have hd2 : (ds ++ " " ++ hm).data = "--:--".data := by rw [hh]
    rw [hdata] at hd2
    have hsp : ' ' ∈ "--:--".data := by
      rw [← hd2]
      exact List.mem_append_right _ (List.mem_cons_self _ _)
    exact absurd hsp (by decide)
  rw [if_neg hne]
  have hmem : ' ' ∈ (ds ++ " " ++ hm).data := by
    rw [hdata]
    exact List.mem_append_right _ (List.mem_cons_self _ _)
  rw [if_pos hmem]
  rw [hdata, splitOnChar_append ' ' _ _ hds, splitOnChar_not_mem ' ' _ hhm]
  show String.mk (hm.data.take 5) = hm
  rw [← hlen, List.take_length]

/-- The non-empty-month branch of the renderer in closed form. -/
theorem renderizar_com_registros (y m : Nat) (regs : Registros) (det : List String)
    (hy1 : 1 ≤ y) (hy2 : y ≤ 9999) (hm1 : 1 ≤ m) (hm2 : m ≤ 12)
    (hfil : regs.filter (fun p => pyStartswith p.1 (fmtYM y m)) ≠ [])
    (hdet : diasDetalhes m (regs.filter (fun p => pyStartswith p.1 (fmtYM y m)))
        (sortStr ((regs.filter (fun p => pyStartswith p.1 (fmtYM y m))).map (fun p => p.1)))
      = some det) :
    renderizarCalendario y m regs =
      some (("```" :: cabecalho :: ((monthWeeks y m).map weekRow ++ ["```"]))
        ++ ("**Registros de ponto por dia:**" :: det)) := by
  unfold renderizarCalendario
  rw [if_pos ⟨hy1, hy2, hm1, hm2⟩]
  simp only [if_neg hfil, hdet]

/-- C8: a record in the requested month with an entry stamp and the exit placeholder
is rendered as `- {nome}: entrada {HH:MM} | saída --:--`, the entry truncated to
hour and minute. -/
theorem renderizar_entrada_sem_saida (y m d hh mi : Nat) (uid nome : String)
    (regs : Registros) (dia : DiaMap)
    (hy1 : 1 ≤ y) (hy2 : y ≤ 9999) (hm1 : 1 ≤ m) (hm2 : m ≤ 12)
    (hd1 : 1 ≤ d) (hd2 : d ≤ daysInMonth y m) (hhh : hh < 100) (hmi : mi < 100)
    (hvalid : ∀ p ∈ regs, ChaveValida p.1)
    (hnodup : (regs.map Prod.fst).Nodup)
    (hmem : (fmtDate y m d, dia) ∈ regs)
    (huser : (uid, ⟨nome, fmtDate y m d ++ " " ++ fmtTime hh mi, "--:--"⟩) ∈ dia) :
    ∃ L, renderizarCalendario y m regs = some L
      ∧ ("- " ++ nome ++ ": entrada " ++ fmtTime hh mi ++ " | saída " ++ "--:--") ∈ L := by
  have hsw := fmtDate_starts y m d
  have hmemf : (fmtDate y m d, dia) ∈ regs.filter (fun p => pyStartswith p.1 (fmtYM y m)) :=
    List.mem_filter.mpr ⟨hmem, hsw⟩
  have hfil : regs.filter (fun p => pyStartswith p.1 (fmtYM y m)) ≠ [] :=
    List.ne_nil_of_mem hmemf
  have hkeys : ∀ k ∈ sortStr ((regs.filter (fun p => pyStartswith p.1 (fmtYM y m))).map
      (fun p => p.1)), ∃ p, parseDateStr k = some p := by
    intro k hk
    rw [mem_sortStr] at hk
    obtain ⟨pr, hpr, hpk⟩ := List.mem_map.mp hk
    obtain ⟨y', m', d', hy1', hy2', hm1', hm2', hd1', hd2', hkey⟩ :=
      hvalid pr (List.mem_of_mem_filter hpr)
    rw [← hpk, hkey]
    exact ⟨_, parse_fmtDate y' m' d' hy1' hy2' hm1' hm2' hd1' hd2'⟩
  obtain ⟨det, hdet⟩ := diasDetalhes_some m
    (regs.filter (fun p => pyStartswith p.1 (fmtYM y m))) _ hkeys
  have hrender := renderizar_com_registros y m regs det hy1 hy2 hm1 hm2 hfil hdet
  have hnodupf : ((regs.filter (fun p => pyStartswith p.1 (fmtYM y m))).map Prod.fst).Nodup :=
    hnodup.sublist ((List.filter_sublist regs).map Prod.fst)
  have hdget : dget (regs.filter (fun p => pyStartswith p.1 (fmtYM y m))) (fmtDate y m d)
      = some dia := dget_of_mem_nodup _ _ _ hmemf hnodupf
  have hks : fmtDate y m d ∈ sortStr ((regs.filter (fun p => pyStartswith p.1 (fmtYM y m))).map
      (fun p => p.1)) :=
    (mem_sortStr _ _).mpr (List.mem_map.mpr ⟨(fmtDate y m d, dia), hmemf, rfl⟩)
  have hline := diasDetalhes_mem m _ _ det (fmtDate y m d) dia uid
    ⟨nome, fmtDate y m d ++ " " ++ fmtTime hh mi, "--:--"⟩ hdet hks hdget huser
  have hlu : linhaUsuario ⟨nome, fmtDate y m d ++ " " ++ fmtTime hh mi, "--:--"⟩
      = "- " ++ nome ++ ": entrada " ++ fmtTime hh mi ++ " | saída " ++ "--:--" := by
    unfold linhaUsuario
    rw [show (⟨nome, fmtDate y m d ++ " " ++ fmtTime hh mi, "--:--"⟩ : Registro).entrada
      = fmtDate y m d ++ " " ++ fmtTime hh mi from rfl]
    rw [fmtHora_stamp _ _ (no_space_fmtDate y m d) (no_space_fmtTime hh mi)
      (fmtTime_len hh mi hhh hmi)]
    rfl
  refine ⟨_, hrender, ?_⟩
  rw [← hlu]
  exact List.mem_append_right _ (List.mem_cons_of_mem _ hline)

/-- Witness for `renderizar_entrada_sem_saida`: the record for alice entered at
2025-11-28 09:00, no exit; the render of November 2025 includes
`- alice: entrada 09:00 | saída --:--`. -/
theorem renderizar_entrada_sem_saida_witness :
    ∃ L, renderizarCalendario 2025 11
        [("2025-11-28", [("42", ⟨"alice", "2025-11-28 09:00", "--:--"⟩)])] = some L
      ∧ ("- " ++ "alice" ++ ": entrada " ++ fmtTime 9 0 ++ " | saída " ++ "--:--") ∈ L := by
  refine renderizar_entrada_sem_saida 2025 11 28 9 0 "42" "alice"
    [("2025-11-28", [("42", ⟨"alice", "2025-11-28 09:00", "--:--"⟩)])]
    [("42", ⟨"alice", "2025-11-28 09:00", "--:--"⟩)]
    (by decide) (by decide) (by decide) (by decide) (by decide) (by decide) (by decide)
    (by decide) ?_ (by decide) (by decide) (by decide)
  intro p hp
  have hp' : p = ("2025-11-28", [("42", ⟨"alice", "2025-11-28 09:00", "--:--"⟩)]) := by
    simpa using hp
  rw [hp']
  exact ⟨2025, 11, 28, by decide, by decide, by decide, by decide, by decide, by decide,
    by decide⟩

/-! ## C9: save/load round-trip — parser lemmas -/

theorem skipWs_cons_of_ws {c : Char} (l : List Char)
    (h : c = ' ' ∨ c = '\n' ∨ c = '\t' ∨ c = '\r') : skipWs (c :: l) = skipWs l := by
  rw [skipWs.eq_def]
  dsimp only
  rw [if_pos h]

theorem skipWs_cons_of_not {c : Char} (l : List Char)
    (h : ¬(c = ' ' ∨ c = '\n' ∨ c = '\t' ∨ c = '\r')) : skipWs (c :: l) = c :: l := by
  rw [skipWs.eq_def]
  dsimp only
  rw [if_neg h]

theorem skipWs_replicate_space (n : Nat) (l : List Char) :
    skipWs (List.replicate n ' ' ++ l) = skipWs l := by
  induction n with
  | zero => rfl
  | succ k ih =>
    rw [List.replicate_succ, List.cons_append, skipWs_cons_of_ws _ (Or.inl rfl)]
    exact ih

theorem parseVal_eq_of_skipWs (fuel : Nat) (cs cs' : List Char)
    (h : skipWs cs = skipWs cs') : parseVal fuel cs = parseVal fuel cs' := by
  cases fuel with
  | zero => rfl
  | succ f =>
    unfold parseVal
    rw [h]

theorem parseFields_eq_of_skipWs (pv : List Char → Option (Json × List Char)) (fuel : Nat)
    (cs cs' : List Char) (h : skipWs cs = skipWs cs') :
    parseFields pv fuel cs = parseFields pv fuel cs' := by
  cases fuel with
  | zero => rfl
  | succ f =>
    unfold parseFields
    rw [h]

theorem parseStrBody_cons (c : Char) (t : List Char) :
    parseStrBody (c :: t) =
      if c = '\\' then
        match t with
        | c2 :: t2 =>
          if c2 = '"' ∨ c2 = '\\' then (parseStrBody t2).map (fun p => (c2 :: p.1, p.2))
          else none
        | [] => none
      else if c = '"' then some ([], t)
      else (parseStrBody t).map (fun p => (c :: p.1, p.2)) := by
  rw [parseStrBody.eq_def]

theorem escapeStr_cons (c : Char) (t : List Char) :
    escapeStr (c :: t) =
      if c = '"' ∨ c = '\\' then '\\' :: c :: escapeStr t else c :: escapeStr t := by
  rw [escapeStr.eq_def]

theorem parseStrBody_escape : ∀ s rest : List Char,
    parseStrBody (escapeStr s ++ '"' :: rest) = some (s, rest) := by
  intro s
  induction s with
  | nil =>
    intro rest
    show parseStrBody ('"' :: rest) = some ([], rest)
    rw [parseStrBody_cons, if_neg (by decide), if_pos rfl]
  | cons c t ih =>
    intro rest
    by_cases hc : c = '"' ∨ c = '\\'
    · rw [escapeStr_cons, if_pos hc, List.cons_append, List.cons_append, parseStrBody_cons,
        if_pos rfl]
      dsimp only
      rw [if_pos hc, ih rest]
      rfl
    · have hc1 : ¬ c = '\\' := fun hh => hc (Or.inr hh)
      have hc2 : ¬ c = '"' := fun hh => hc (Or.inl hh)
      rw [escapeStr_cons, if_neg hc, List.cons_append, parseStrBody_cons, if_neg hc1,
        if_neg hc2, ih rest]
      rfl

theorem takeWhile_all_append (p : Char → Bool) : ∀ l₁ l₂ : List Char,
    (∀ c ∈ l₁, p c = true) → (∀ c, l₂.head? = some c → p c = false) →
    (l₁ ++ l₂).takeWhile p = l₁ ∧ (l₁ ++ l₂).dropWhile p = l₂ := by
  intro l₁
  induction l₁ with
  | nil =>
    intro l₂ _ hstop
    cases l₂ with
    | nil => exact ⟨rfl, rfl⟩
    | cons c t =>
      have hc := hstop c rfl
      simp [List.takeWhile_cons, List.dropWhile_cons, hc]
  | cons c t ih =>
    intro l₂ hall hstop
    have hc := hall c (List.mem_cons_self c t)
    obtain ⟨h1, h2⟩ := ih l₂ (fun x hx => hall x (List.mem_cons_of_mem _ hx)) hstop
    simp [List.takeWhile_cons, List.dropWhile_cons, hc, h1, h2]

theorem natToStr_ne_nil (n : Nat) : (natToStr n).data ≠ [] := by
  rcases Nat.eq_zero_or_pos n with h0 | hpos
  · subst h0; decide
  · rw [natToStr_data_pos hpos]
    obtain ⟨k, hk⟩ : ∃ k, n = k + 1 := ⟨n - 1, by omega⟩
    subst hk
    have : natDigitsRevAux (k + 1) (k + 1)
        = ((k + 1) % 10) :: natDigitsRevAux k ((k + 1) / 10) := rfl
    rw [this]
    simp

theorem parseNumTok_natToStr (n : Nat) (rest : List Char)
    (hstop : ∀ c, rest.head? = some c → c.isDigit = false) :
    parseNumTok ((natToStr n).data ++ rest) = some (n, rest) := by
  obtain ⟨htake, hdrop⟩ := takeWhile_all_append (fun c => c.isDigit) _ rest
    (natToStr_all_digits n) hstop
  unfold parseNumTok
  rw [htake, hdrop, if_neg (natToStr_ne_nil n), digitsToNat_natToStr]

/-! ## Serializer equations and the fuel bound -/

theorem quoteStr_data (s : String) : (quoteStr s).data = '"' :: (escapeStr s.data ++ ['"']) := rfl

theorem spacesStr_data (n : Nat) : (spacesStr n).data = List.replicate n ' ' := rfl

theorem dumpJ_str (ind : Nat) (s : String) : dumpJ true ind (.jstr s) = quoteStr s := by
  rw [dumpJ.eq_def]

theorem dumpJ_num (ind : Nat) (n : Nat) : dumpJ true ind (.jnum n) = natToStr n := by
  rw [dumpJ.eq_def]

theorem dumpJ_obj (ind : Nat) (f : Json) :
    dumpJ true ind (.jobj f) =
      if f = .jnil then "\x7b\x7d"
      else "\x7b\n" ++ dumpJ false (ind + 2) f ++ "\n" ++ spacesStr ind ++ "\x7d" := by
  rw [dumpJ.eq_def]

theorem dumpJ_cons_nil (ind : Nat) (k : String) (v : Json) :
    dumpJ false ind (.jcons k v .jnil) = spacesStr ind ++ quoteStr k ++ ": " ++ dumpJ true ind v := by
  rw [dumpJ.eq_def]

theorem dumpJ_cons_cons (ind : Nat) (k : String) (v : Json) (k2 : String) (v2 t2 : Json) :
    dumpJ false ind (.jcons k v (.jcons k2 v2 t2)) =
      spacesStr ind ++ quoteStr k ++ ": " ++ dumpJ true ind v ++ ",\n"
        ++ dumpJ false ind (.jcons k2 v2 t2) := by
  rw [dumpJ.eq_def]

theorem wfJ_false_cons (k : String) (v t : Json) :
    wfJ false (.jcons k v t)
      = (k.data.all (fun c => 32 ≤ c.toNat) && wfJ true v && wfJ false t) := by
  rw [wfJ.eq_def]

theorem jsize_obj (f : Json) : jsize true (.jobj f) = 1 + jsize false f := by
  rw [jsize.eq_def]

theorem jsize_cons (k : String) (v t : Json) :
    jsize false (.jcons k v t) = 1 + jsize true v + jsize false t := by
  rw [jsize.eq_def]

theorem jsize_le_dump : ∀ v : Json,
    (wfJ true v = true → ∀ ind, jsize true v ≤ (dumpJ true ind v).data.length)
    ∧ (wfJ false v = true → ∀ ind, jsize false v ≤ (dumpJ false ind v).data.length) := by
  intro v
  induction v with
  | jstr s =>
    refine ⟨?_, ?_⟩
    · intro _ ind
      rw [dumpJ_str, quoteStr_data]
      show 1 ≤ _
      simp
    · intro hwf
      exact absurd (show false = true from hwf) (by simp)
  | jnum n =>
    refine ⟨?_, ?_⟩
    · intro _ ind
      rw [dumpJ_num]
      show 1 ≤ _
      have := natToStr_ne_nil n
      cases hh : (natToStr n).data with
      | nil => exact absurd hh this
      | cons a t => simp
    · intro hwf
      exact absurd (show false = true from hwf) (by simp)
  | jobj f ihf =>
    refine ⟨?_, ?_⟩
    · intro hwf ind
      rw [dumpJ_obj, jsize_obj]
      by_cases hf : f = .jnil
      · subst hf
        rw [if_pos rfl]
        decide
      · rw [if_neg hf]
        have hwf' : wfJ false f = true := hwf
        have hih := ihf.2 hwf' (ind + 2)
        simp only [String.data_append, List.length_append, spacesStr_data,
          List.length_replicate, List.length_cons, List.length_nil]
        omega
    · intro hwf
      exact absurd (show false = true from hwf) (by simp)
  | jnil =>
    refine ⟨?_, ?_⟩
    · intro hwf
      exact absurd (show false = true from hwf) (by simp)
    · intro _ ind
      show 0 ≤ _
      omega
  | jcons k v t ihv iht =>
    refine ⟨?_, ?_⟩
    · intro hwf
      exact absurd (show false = true from hwf) (by simp)
    · intro hwf ind
      rw [wfJ_false_cons] at hwf
      have hwf2 := hwf
      simp only [Bool.and_eq_true] at hwf2
      obtain ⟨⟨_, hv⟩, ht⟩ := hwf2
      rw [jsize_cons]
      have hqk : 2 ≤ (quoteStr k).data.length := by
        rw [quoteStr_data]
        simp
      cases t with
      | jnil =>
        rw [dumpJ_cons_nil]
        have hih := ihv.1 hv ind
        simp only [String.data_append, List.length_append, spacesStr_data,
          List.length_replicate, List.length_cons, List.length_nil]
        have h2 : jsize false Json.jnil = 0 := rfl
        omega
      | jcons k2 v2 t2 =>
        rw [dumpJ_cons_cons]
        have hih := ihv.1 hv ind
        have hih2 := iht.2 ht ind
        simp only [String.data_append, List.length_append, spacesStr_data,
          List.length_replicate, List.length_cons, List.length_nil]
        omega
      | jstr s => exact absurd (show false = true from ht) (by simp)
      | jnum n => exact absurd (show false = true from ht) (by simp)
      | jobj f => exact absurd (show false = true from ht) (by simp)

theorem parseVal_succ_eval (f : Nat) (cs : List Char) :
    parseVal (f + 1) cs =
      match skipWs cs with
      | [] => none
      | c :: t =>
        if c = '"' then (parseStrBody t).map (fun p => (Json.jstr (String.mk p.1), p.2))
        else if c = '{' then
          match skipWs t with
          | c2 :: r =>
            if c2 = '}' then some (Json.jobj Json.jnil, r)
            else (parseFields (parseVal f) (f + 1) t).map (fun p => (Json.jobj p.1, p.2))
          | [] => none
        else if c.isDigit then (parseNumTok (c :: t)).map (fun p => (Json.jnum p.1, p.2))
        else none := by
  rw [parseVal.eq_def]

theorem parseFields_succ_eval (pv : List Char → Option (Json × List Char)) (f : Nat)
    (cs : List Char) :
    parseFields pv (f + 1) cs =
      match skipWs cs with
      | [] => none
      | c :: t =>
        if c = '"' then
          match parseStrBody t with
          | none => none
          | some (k, r1) =>
            match skipWs r1 with
            | [] => none
            | c2 :: r2 =>
              if c2 = ':' then
                match pv r2 with
                | none => none
                | some (v, r3) =>
                  match skipWs r3 with
                  | [] => none
                  | c3 :: r4 =>
                    if c3 = ',' then
                      (parseFields pv f r4).map (fun p => (Json.jcons (String.mk k) v p.1, p.2))
                    else if c3 = '}' then some (Json.jcons (String.mk k) v Json.jnil, r4)
                    else none
              else none
        else none := by
  rw [parseFields.eq_def]

/-! ## The round-trip of `dumpJ` and `parseVal` -/

theorem digit_not_ws {c : Char} (h : c.isDigit = true) :
    ¬(c = ' ' ∨ c = '\n' ∨ c = '\t' ∨ c = '\r') := by
  intro hh
  rcases hh with h' | h' | h' | h' <;> (subst h'; exact absurd h (by decide))

theorem digit_ne_quote {c : Char} (h : c.isDigit = true) : ¬ c = '"' := by
  intro hh
  subst hh
  exact absurd h (by decide)

theorem digit_ne_brace {c : Char} (h : c.isDigit = true) : ¬ c = '{' := by
  intro hh
  subst hh
  exact absurd h (by decide)

theorem skipWs_dumpF (ind' : Nat) (k : String) (v t : Json) (X : List Char)
    (ht : t = Json.jnil ∨ ∃ k2 v2 t2, t = Json.jcons k2 v2 t2) :
    ∃ R, skipWs ((dumpJ false ind' (.jcons k v t)).data ++ X) = '"' :: R := by
  rcases ht with ht | ⟨k2, v2, t2, ht⟩
  · subst ht
    refine ⟨escapeStr k.data ++ ('"' :: (':' :: ' ' :: ((dumpJ true ind' v).data ++ X))), ?_⟩
    rw [dumpJ_cons_nil]
    have hdata : (spacesStr ind' ++ quoteStr k ++ ": " ++ dumpJ true ind' v).data ++ X
        = List.replicate ind' ' '
          ++ '"' :: (escapeStr k.data
            ++ ('"' :: (':' :: ' ' :: ((dumpJ true ind' v).data ++ X)))) := by
      simp [String.data_append, spacesStr_data, quoteStr_data,
        show (": " : String).data = [':', ' '] from rfl]
    rw [hdata, skipWs_replicate_space, skipWs_cons_of_not _ (by decide)]
  · subst ht
    refine ⟨escapeStr k.data ++ ('"' :: (':' :: ' ' :: ((dumpJ true ind' v).data
      ++ ',' :: '\n' :: ((dumpJ false ind' (.jcons k2 v2 t2)).data ++ X)))), ?_⟩
    rw [dumpJ_cons_cons]
    have hdata : (spacesStr ind' ++ quoteStr k ++ ": " ++ dumpJ true ind' v ++ ",\n"
          ++ dumpJ false ind' (.jcons k2 v2 t2)).data ++ X
        = List.replicate ind' ' '
          ++ '"' :: (escapeStr k.data ++ ('"' :: (':' :: ' ' :: ((dumpJ true ind' v).data
            ++ ',' :: '\n' :: ((dumpJ false ind' (.jcons k2 v2 t2)).data ++ X))))) := by
      simp [String.data_append, spacesStr_data, quoteStr_data,
        show (": " : String).data = [':', ' '] from rfl,
        show (",\n" : String).data = [',', '\n'] from rfl]
    rw [hdata, skipWs_replicate_space, skipWs_cons_of_not _ (by decide)]

theorem parse_dump : ∀ v : Json,
    (wfJ true v = true → ∀ fuel ind rest, jsize true v ≤ fuel →
      (∀ c, rest.head? = some c → c.isDigit = false) →
      parseVal fuel ((dumpJ true ind v).data ++ rest) = some (v, rest))
    ∧ (wfJ false v = true → v ≠ .jnil → ∀ vfuel ffuel ind ind2 rest,
      jsize false v ≤ vfuel → jsize false v ≤ ffuel →
      parseFields (parseVal vfuel) ffuel
        ((dumpJ false ind v).data ++ '\n' :: (List.replicate ind2 ' ' ++ '}' :: rest))
        = some (v, rest)) := by
  intro v
  induction v with
  | jstr s =>
    refine ⟨?_, ?_⟩
    · intro _ fuel ind rest hfuel hstop
      cases fuel with
      | zero =>
        have h1 : jsize true (Json.jstr s) = 1 := rfl
        rw [h1] at hfuel
        omega
      | succ f =>
        rw [dumpJ_str]
        have hdata : (quoteStr s).data ++ rest = '"' :: (escapeStr s.data ++ ('"' :: rest)) := by
          rw [quoteStr_data]
          simp
        rw [hdata, parseVal_succ_eval, skipWs_cons_of_not _ (by decide)]
        dsimp only
        rw [if_pos rfl, parseStrBody_escape]
        rfl
    · intro hwf _
      exact absurd (show false = true from hwf) (by simp)
  | jnum n =>
    refine ⟨?_, ?_⟩
    · intro _ fuel ind rest hfuel hstop
      cases fuel with
      | zero =>
        have h1 : jsize true (Json.jnum n) = 1 := rfl
        rw [h1] at hfuel
        omega
      | succ f =>
        rw [dumpJ_num]
        cases hnd : (natToStr n).data with
        | nil => exact absurd hnd (natToStr_ne_nil n)
        | cons c t =>
          have hc : c.isDigit = true := by
            apply natToStr_all_digits n
            rw [hnd]
            exact List.mem_cons_self c t
          rw [List.cons_append, parseVal_succ_eval,
            skipWs_cons_of_not _ (digit_not_ws hc)]
          dsimp only
          rw [if_neg (digit_ne_quote hc), if_neg (digit_ne_brace hc), if_pos hc]
          rw [← List.cons_append, ← hnd, parseNumTok_natToStr n rest hstop]
          rfl
    · intro hwf _
      exact absurd (show false = true from hwf) (by simp)
  | jobj f ihf =>
    refine ⟨?_, ?_⟩
    · intro hwf fuel ind rest hfuel hstop
      have hwf' : wfJ false f = true := hwf
      cases fuel with
      | zero =>
        rw [jsize_obj] at hfuel
        omega
      | succ fu =>
        rw [dumpJ_obj]
        by_cases hf : f = .jnil
        · subst hf
          rw [if_pos rfl]
          have hdata : ("\x7b\x7d" : String).data ++ rest = '{' :: '}' :: rest := rfl
          rw [hdata, parseVal_succ_eval, skipWs_cons_of_not _ (by decide)]
          dsimp only
          rw [if_neg (by decide), if_pos rfl, skipWs_cons_of_not _ (by decide)]
          dsimp only
          rw [if_pos rfl]
        · rw [if_neg hf]
          obtain ⟨k1, v1, t1, hf1⟩ : ∃ k1 v1 t1, f = .jcons k1 v1 t1 := by
            cases f with
            | jcons a b c => exact ⟨a, b, c, rfl⟩
            | jnil => exact absurd rfl hf
            | jstr s => exact absurd (show false = true from hwf') (by simp)
            | jnum m => exact absurd (show false = true from hwf') (by simp)
            | jobj g => exact absurd (show false = true from hwf') (by simp)
          have hdata : ("\x7b\n" ++ dumpJ false (ind + 2) f ++ "\n" ++ spacesStr ind ++ "\x7d").data
                ++ rest
              = '{' :: '\n' :: ((dumpJ false (ind + 2) f).data
                ++ '\n' :: (List.replicate ind ' ' ++ '}' :: rest)) := by
            simp [String.data_append, spacesStr_data,
              show ("\x7b\n" : String).data = ['{', '\n'] from rfl,
              show ("\n" : String).data = ['\n'] from rfl,
              show ("\x7d" : String).data = ['}'] from rfl]
          rw [hdata, parseVal_succ_eval, skipWs_cons_of_not _ (by decide)]
          dsimp only
          rw [if_neg (by decide), if_pos rfl]
          have ht1 : t1 = Json.jnil ∨ ∃ k2 v2 t2, t1 = Json.jcons k2 v2 t2 := by
            have hwft1 : wfJ false t1 = true := by
              rw [hf1, wfJ_false_cons] at hwf'
              simp only [Bool.and_eq_true] at hwf'
              exact hwf'.2
            cases t1 with
            | jnil => exact Or.inl rfl
            | jcons a b cc => exact Or.inr ⟨a, b, cc, rfl⟩
            | jstr s => exact absurd (show false = true from hwft1) (by simp)
            | jnum mm => exact absurd (show false = true from hwft1) (by simp)
            | jobj g => exact absurd (show false = true from hwft1) (by simp)
          obtain ⟨R, hR⟩ := skipWs_dumpF (ind + 2) k1 v1 t1
            ('\n' :: (List.replicate ind ' ' ++ '}' :: rest)) ht1
          rw [← hf1] at hR
          have hskipt : skipWs ('\n' :: ((dumpJ false (ind + 2) f).data
              ++ '\n' :: (List.replicate ind ' ' ++ '}' :: rest))) = '"' :: R := by
            rw [skipWs_cons_of_ws _ (Or.inr (Or.inl rfl))]
            exact hR
          rw [hskipt]
          dsimp only
          rw [if_neg (by decide)]
          have hfields := ihf.2 hwf' hf fu (fu + 1) (ind + 2) ind rest
            (by rw [jsize_obj] at hfuel; omega) (by rw [jsize_obj] at hfuel; omega)
          have hdrop : parseFields (parseVal fu) (fu + 1)
              ('\n' :: ((dumpJ false (ind + 2) f).data
                ++ '\n' :: (List.replicate ind ' ' ++ '}' :: rest)))
              = parseFields (parseVal fu) (fu + 1)
                ((dumpJ false (ind + 2) f).data
                  ++ '\n' :: (List.replicate ind ' ' ++ '}' :: rest)) :=
            parseFields_eq_of_skipWs _ _ _ _ (skipWs_cons_of_ws _ (Or.inr (Or.inl rfl)))
          rw [hdrop, hfields]
          rfl
    · intro hwf _
      exact absurd (show false = true from hwf) (by simp)
  | jnil =>
    refine ⟨?_, ?_⟩
    · intro hwf
      exact absurd (show false = true from hwf) (by simp)
    · intro _ hne
      exact absurd rfl hne
  | jcons k v t ihv iht =>
    refine ⟨?_, ?_⟩
    · intro hwf
      exact absurd (show false = true from hwf) (by simp)
    · intro hwf _ vfuel ffuel ind ind2 rest hsv hsf
      have hwf2 := hwf
      rw [wfJ_false_cons] at hwf2
      simp only [Bool.and_eq_true] at hwf2
      obtain ⟨⟨_, hv⟩, ht⟩ := hwf2
      cases ffuel with
      | zero =>
        rw [jsize_cons] at hsf
        omega
      | succ ff =>
        cases t with
        | jstr s => exact absurd (show false = true from ht) (by simp)
        | jnum m => exact absurd (show false = true from ht) (by simp)
        | jobj g => exact absurd (show false = true from ht) (by simp)
        | jnil =>
          rw [dumpJ_cons_nil]
          have hdata : (spacesStr ind ++ quoteStr k ++ ": " ++ dumpJ true ind v).data
                ++ '\n' :: (List.replicate ind2 ' ' ++ '}' :: rest)
              = List.replicate ind ' '
                ++ '"' :: (escapeStr k.data ++ ('"' :: (':' :: ' ' :: ((dumpJ true ind v).data
                  ++ '\n' :: (List.replicate ind2 ' ' ++ '}' :: rest))))) := by
            simp [String.data_append, spacesStr_data, quoteStr_data,
              show (": " : String).data = [':', ' '] from rfl]
          rw [hdata, parseFields_succ_eval, skipWs_replicate_space,
            skipWs_cons_of_not _ (by decide)]
          dsimp only
          rw [if_pos rfl, parseStrBody_escape]
          dsimp only
          rw [skipWs_cons_of_not _ (by decide)]
          dsimp only
          rw [if_pos rfl]
          have hstop2 : ∀ c, ('\n' :: (List.replicate ind2 ' ' ++ '}' :: rest)).head?
              = some c → c.isDigit = false := by
            intro c hc
            have : c = '\n' := by
              have hh : some '\n' = some c := hc
              exact (Option.some_inj.mp hh).symm
            rw [this]
            rfl
          have hv' := ihv.1 hv vfuel ind ('\n' :: (List.replicate ind2 ' ' ++ '}' :: rest))
            (by rw [jsize_cons] at hsv; omega) hstop2
          have hws : parseVal vfuel (' ' :: ((dumpJ true ind v).data
              ++ '\n' :: (List.replicate ind2 ' ' ++ '}' :: rest)))
              = some (v, '\n' :: (List.replicate ind2 ' ' ++ '}' :: rest)) := by
            rw [parseVal_eq_of_skipWs vfuel _ _ (skipWs_cons_of_ws _ (Or.inl rfl))]
            exact hv'
          rw [hws]
          dsimp only
          rw [skipWs_cons_of_ws _ (Or.inr (Or.inl rfl)), skipWs_replicate_space,
            skipWs_cons_of_not _ (by decide)]
          dsimp only
          rw [if_neg (by decide), if_pos rfl]
        | jcons k2 v2 t2 =>
          rw [dumpJ_cons_cons]
          have hdata : (spacesStr ind ++ quoteStr k ++ ": " ++ dumpJ true ind v ++ ",\n"
                ++ dumpJ false ind (.jcons k2 v2 t2)).data
                ++ '\n' :: (List.replicate ind2 ' ' ++ '}' :: rest)
              = List.replicate ind ' '
                ++ '"' :: (escapeStr k.data ++ ('"' :: (':' :: ' ' :: ((dumpJ true ind v).data
                  ++ ',' :: '\n' :: ((dumpJ false ind (.jcons k2 v2 t2)).data
                    ++ '\n' :: (List.replicate ind2 ' ' ++ '}' :: rest)))))) := by
            simp [String.data_append, spacesStr_data, quoteStr_data,
              show (": " : String).data = [':', ' '] from rfl,
              show (",\n" : String).data = [',', '\n'] from rfl]
          rw [hdata, parseFields_succ_eval, skipWs_replicate_space,
            skipWs_cons_of_not _ (by decide)]
          dsimp only
          rw [if_pos rfl, parseStrBody_escape]
          dsimp only
          rw [skipWs_cons_of_not _ (by decide)]
          dsimp only
          rw [if_pos rfl]
          have hstop2 : ∀ c, (',' :: '\n' :: ((dumpJ false ind (.jcons k2 v2 t2)).data
              ++ '\n' :: (List.replicate ind2 ' ' ++ '}' :: rest))).head?
              = some c → c.isDigit = false := by
            intro c hc
            have : c = ',' := by
              have hh : some ',' = some c := hc
              exact (Option.some_inj.mp hh).symm
            rw [this]
            rfl
          have hv' := ihv.1 hv vfuel ind (',' :: '\n' :: ((dumpJ false ind (.jcons k2 v2 t2)).data
            ++ '\n' :: (List.replicate ind2 ' ' ++ '}' :: rest)))
            (by rw [jsize_cons] at hsv; omega) hstop2
          have hws : parseVal vfuel (' ' :: ((dumpJ true ind v).data
              ++ ',' :: '\n' :: ((dumpJ false ind (.jcons k2 v2 t2)).data
                ++ '\n' :: (List.replicate ind2 ' ' ++ '}' :: rest))))
              = some (v, ',' :: '\n' :: ((dumpJ false ind (.jcons k2 v2 t2)).data
                ++ '\n' :: (List.replicate ind2 ' ' ++ '}' :: rest))) := by
            rw [parseVal_eq_of_skipWs vfuel _ _ (skipWs_cons_of_ws _ (Or.inl rfl))]
            exact hv'
          rw [hws]
          dsimp only
          rw [skipWs_cons_of_not _ (by decide)]
          dsimp only
          rw [if_pos rfl]
          have hhne : (Json.jcons k2 v2 t2) ≠ Json.jnil := fun hh => Json.noConfusion hh
          have hrec := iht.2 ht hhne vfuel ff ind ind2 rest
            (by rw [jsize_cons]; rw [jsize_cons, jsize_cons] at hsv; omega)
            (by rw [jsize_cons]; rw [jsize_cons, jsize_cons] at hsf; omega)
          have hdrop : parseFields (parseVal vfuel) ff
              ('\n' :: ((dumpJ false ind (.jcons k2 v2 t2)).data
                ++ '\n' :: (List.replicate ind2 ' ' ++ '}' :: rest)))
              = parseFields (parseVal vfuel) ff
                ((dumpJ false ind (.jcons k2 v2 t2)).data
                  ++ '\n' :: (List.replicate ind2 ' ' ++ '}' :: rest)) :=
            parseFields_eq_of_skipWs _ _ _ _ (skipWs_cons_of_ws _ (Or.inr (Or.inl rfl)))
          rw [hdrop, hrec]
          rfl

/-- C9: the save/load round-trip is the identity on stored documents.  For any file
content that loads as document `d` (well-formed: the JSON fragment the program
writes, with no control characters inside strings), saving `d` and loading again
yields `d` itself — `save(load())` leaves the stored state structurally identical. -/
theorem carregar_salvar_roundtrip (conteudo : String) (d : Json)
    (hwf : wfJ true d = true) (hload : carregar_dados conteudo = some d) :
    carregar_dados (salvar_dados d) = some d := by
  unfold carregar_dados salvar_dados
  have hstop : ∀ c, ([] : List Char).head? = some c → c.isDigit = false := by
    intro c hc
    simp at hc
  have h := (parse_dump d).1 hwf ((dumpJ true 0 d).data.length + 1) 0 []
    (le_trans ((jsize_le_dump d).1 hwf 0) (Nat.le_succ _)) hstop
  rw [List.append_nil] at h
  rw [h]
  rfl

/-- Witness for `carregar_salvar_roundtrip` on a concrete stored document. -/
theorem carregar_salvar_roundtrip_witness :
    wfJ true exemploDoc = true
    ∧ carregar_dados (salvar_dados exemploDoc) = some exemploDoc :=
  ⟨by decide,
   carregar_salvar_roundtrip (salvar_dados exemploDoc) exemploDoc (by decide) (by decide)⟩

end GreenDisc
